import Mathlib

/-!
# Tetris for the RP2040 with an SSD1306 panel: embedding and properties

Shallow embedding of `noBuzzerAndRotation/main.cpp` and `ssd1306.cpp`.

* C `int` values (anchors, loop indices) are `Int`/`Nat`. Signed overflow is undefined in
  C; the compiled code wraps in 32 bits, and check_collision_shape, the one place where
  a wrapped sum changes the result, computes its sums with `wrap32`. In lock_shape and
  draw_game a wrapped sum fails the in-grid guard exactly as the plain sum does, so the
  plain sum is kept there.
* `uint8_t` values are `Fin 256` (grid cells, framebuffer bytes) or `Nat` reduced
  `% 256` where the source narrows an `int` to `uint8_t`.
* Globals become fields of an explicit state; LED pulses and I2C writes are logged.
* Array accesses the source does not guard are checked: an access outside the array
  is the fault `Fault.bounds`; a loop that needs more steps than the fuel it is
  given is the fault `Fault.fuel`.
-/

namespace Tetris

/-! ## Data model -/

/-- The constant `GRID_WIDTH` of main.cpp. -/
def GRID_WIDTH : Nat := 16

/-- The constant `GRID_HEIGHT` of main.cpp. -/
def GRID_HEIGHT : Nat := 8

/-- One `uint8_t` grid cell: 0 is empty, anything else is occupied. -/
abbrev Cell := Fin 256

/-- One grid row, `uint8_t [GRID_WIDTH]`. -/
abbrev Row := Fin 16 → Cell

/-- The global `uint8_t grid[GRID_HEIGHT][GRID_WIDTH]`: `cells y x` is `grid[y][x]`. -/
@[ext]
structure Grid where
  cells : Fin 8 → Row

/-- The initial value `{0}` of the grid. -/
def Grid.empty : Grid := ⟨fun _ _ => 0⟩

/-- The read `grid[gy][gx]` with C `int` indices. Every such read in check_collision_shape
is guarded by `0 ≤ gx < 16` and `0 ≤ gy < 8`; outside that range the value here is 0. -/
def Grid.cell (g : Grid) (gy gx : Int) : Cell :=
  if h : 0 ≤ gy ∧ gy < 8 ∧ 0 ≤ gx ∧ gx < 16 then
    g.cells ⟨gy.toNat, by omega⟩ ⟨gx.toNat, by omega⟩
  else 0

/-- The write `grid[r][c] = v`. -/
def Grid.set (g : Grid) (r : Fin 8) (c : Fin 16) (v : Cell) : Grid :=
  ⟨fun r1 c1 => if r1 = r ∧ c1 = c then v else g.cells r1 c1⟩

/-- The constant table `tetrominoes[10][4]` of main.cpp, one 16-bit pattern per rotation. -/
def tetrominoes : List (List Nat) :=
  [ [0x0F00, 0x2222, 0x0F00, 0x2222],   -- I shape
    [0x8E00, 0x6440, 0x0E20, 0x44C0],   -- J shape
    [0x2E00, 0x4460, 0x0E80, 0xC440],   -- L shape
    [0x6600, 0x6600, 0x6600, 0x6600],   -- O shape (square)
    [0x6C00, 0x4620, 0x6C00, 0x4620],   -- S shape
    [0x4E00, 0x4640, 0x0E40, 0x4C40],   -- T shape
    [0xC600, 0x2640, 0xC600, 0x2640],   -- Z shape
    [0x8000, 0x8000, 0x8000, 0x8000],   -- Single block (special)
    [0x4000, 0xE000, 0x4000, 0x0000],   -- Plus (+) shape
    [0x8800, 0xC000, 0x8800, 0xC000] ]  -- 2-block vertical line

/-- The table lookup `tetrominoes[shape][rotation]`. -/
def tetromino_bits (shape : Fin 10) (rotation : Fin 4) : Nat :=
  (tetrominoes.getD shape.val []).getD rotation.val 0

/-- Source `tetromino_cell(shape, rotation, x, y)`:
`(bits & (0x8000 >> (y * 4 + x))) != 0`. -/
def tetromino_cell (shape : Fin 10) (rotation : Fin 4) (x y : Nat) : Bool :=
  let bits := tetromino_bits shape rotation
  (bits &&& (0x8000 >>> (y * 4 + x))) != 0

/-- The value of a 32-bit C `int` expression whose exact value is `i`: two's complement
wrap-around into the range -2147483648 .. 2147483647. -/
def wrap32 (i : Int) : Int := (i + 2147483648) % 4294967296 - 2147483648

/-- Source `check_collision_shape(x, y, shape, rotation)`: the two nested loops over
`py`, `px` in 0..3 with their early `return true`; `false` when both loops finish. The
sums `int gx = x + px` and `int gy = y + py` are 32-bit: for `y` within 3 of the greatest
`int` the sum `y + py` wraps to a negative row, which the function then ignores. -/
def check_collision_shape (grid : Grid) (x y : Int) (shape : Fin 10) (rotation : Fin 4) : Bool :=
  (List.range 4).any fun py =>
    (List.range 4).any fun px =>
      if tetromino_cell shape rotation px py then
        let gx : Int := wrap32 (x + px)
        let gy : Int := wrap32 (y + py)
        if gx < 0 ∨ gx ≥ 16 ∨ gy ≥ 8 then true
        else if gy ≥ 0 ∧ grid.cell gy gx ≠ 0 then true
        else false
      else false

/-- Source `lock_shape(x, y, shape, rotation)`: the two nested loops over `py`, `px` in 0..3;
an occupied pattern cell is written as 1 only when it lies inside the grid. For `int`
anchors a sum that wraps in 32 bits is negative and fails the guard, as the plain sum
(16 or more) does, so the plain sums are used. -/
def lock_shape (grid : Grid) (x y : Int) (shape : Fin 10) (rotation : Fin 4) : Grid :=
  (List.range 4).foldl (fun g py =>
    (List.range 4).foldl (fun g px =>
      if tetromino_cell shape rotation px py then
        let gx : Int := x + px
        let gy : Int := y + py
        if h : gx ≥ 0 ∧ gx < 16 ∧ gy ≥ 0 ∧ gy < 8 then
          g.set ⟨gy.toNat, by omega⟩ ⟨gx.toNat, by omega⟩ 1
        else g
      else g) g) grid

/-- Source `led_flash(duration_ms)`: LED on, sleep, LED off; logged as one pulse of that length. -/
def led_flash (duration_ms : Nat) (led : List Nat) : List Nat :=
  led ++ [duration_ms]

/-- What can go wrong in code the source leaves unguarded. -/
inductive Fault where
  /-- An array was indexed outside its declared size. -/
  | bounds
  /-- A loop was not finished within the steps it was allowed. -/
  | fuel
deriving DecidableEq, Repr

/-- The inner scan of clear_lines: `full_line` stays true unless some `grid[y][x]` is 0
(the `break` stops the scan at the first empty cell). -/
def full_line (row : Row) : Bool :=
  (List.finRange 16).all fun x => row x ≠ 0

/-- The loop `for (col = 0; col < GRID_WIDTH; col++) grid[dst][col] = grid[src][col];`. -/
def copy_row (grid : Grid) (dst src : Fin 8) : Grid :=
  (List.finRange 16).foldl (fun g col => g.set dst col (g.cells src col)) grid

/-- The loop `for (row = y; row > 0; row--)` of clear_lines, copying row-1 into row. -/
def shift_rows_down : (row : Nat) → row < 8 → Grid → Grid
  | 0, _, grid => grid
  | row + 1, h, grid =>
    shift_rows_down row (by omega) (copy_row grid ⟨row + 1, h⟩ ⟨row, by omega⟩)

/-- The loop `for (col = 0; col < GRID_WIDTH; col++) grid[0][col] = 0;`. -/
def clear_top_row (grid : Grid) : Grid :=
  (List.finRange 16).foldl (fun g col => g.set 0 col 0) grid

/-- The scan `for (int y = GRID_HEIGHT - 1; y >= 0; y--)` of clear_lines, entered at row
index `y` with the current grid and `line_cleared`. Each execution of the loop body
costs one unit of fuel; the body reads row `y`, so `y ≥ 8` is a bounds fault. After a
full row is removed the body does `y++` and the loop header `y--`. -/
def clear_lines_loop : Nat → Int → Grid → Bool → Except Fault (Grid × Bool)
  | fuel, y, grid, line_cleared =>
    if y ≥ 0 then
      match fuel with
      | 0 => .error Fault.fuel
      | fuel + 1 =>
        if h : y < 8 then
          if full_line (grid.cells ⟨y.toNat, by omega⟩) then
            clear_lines_loop fuel (y + 1 - 1)
              (clear_top_row (shift_rows_down y.toNat (by omega) grid)) true
          else
            clear_lines_loop fuel (y - 1) grid line_cleared
        else .error Fault.bounds
    else .ok (grid, line_cleared)

/-- Source `clear_lines()`: the scan from the bottom row, then `led_flash(100)` when a line was
cleared. Takes the grid and the LED log and returns both. -/
def clear_lines (fuel : Nat) (grid : Grid) (led : List Nat) :
    Except Fault (Grid × List Nat) :=
  match clear_lines_loop fuel (GRID_HEIGHT - 1 : Nat) grid false with
  | .ok (grid1, line_cleared) =>
    .ok (grid1, if line_cleared then led_flash 100 led else led)
  | .error e => .error e

/-! ## Display -/

/-- A `uint8_t`. -/
abbrev U8 := Fin 256

/-- Narrowing of a non-negative `int` to `uint8_t`. -/
def U8.ofNat (n : Nat) : U8 := ⟨n % 256, Nat.mod_lt _ (by decide)⟩

/-- Narrowing of an `int` to `uint8_t`. -/
def U8.ofInt (i : Int) : U8 := ⟨(i % 256).toNat, by omega⟩

/-- One `i2c_write_blocking` call: the device address and the bytes written. -/
structure I2CWrite where
  address : U8
  bytes : List U8
deriving DecidableEq, Repr

/-- The struct `ssd1306_t` (the bus handle and pin numbers are left out). -/
structure ssd1306_t where
  width : U8
  height : U8
  address : U8
  buffer : Fin 1024 → U8

/-- Source `ssd1306_send_command(dev, cmd)`: writes the control byte 0x00 and the command. -/
def ssd1306_send_command (dev : ssd1306_t) (cmd : U8) (bus : List I2CWrite) : List I2CWrite :=
  bus ++ [⟨dev.address, [0x00, cmd]⟩]

/-- Source `ssd1306_send_data(dev, data, len)`: writes the control byte 0x40 and the data. -/
def ssd1306_send_data (dev : ssd1306_t) (data : List U8) (bus : List I2CWrite) :
    List I2CWrite :=
  bus ++ [⟨dev.address, 0x40 :: data⟩]

/-- The command bytes of the initialisation sequence of ssd1306_init, in order. -/
def init_sequence : List U8 :=
  [0xAE, 0x20, 0x00, 0xB0, 0xC8, 0x00, 0x10, 0x40, 0x81, 0x7F, 0xA1, 0xA6, 0xA8, 0x3F,
   0xA4, 0xD3, 0x00, 0xD5, 0x80, 0xD9, 0xF1, 0xDA, 0x12, 0xDB, 0x40, 0x8D, 0x14, 0xAF]

/-- Source `ssd1306_init(dev, width, height, ...)`: records the geometry and the address 0x3C,
sends the initialisation sequence and zeroes the buffer. -/
def ssd1306_init (width height : U8) (bus : List I2CWrite) : ssd1306_t × List I2CWrite :=
  let dev : ssd1306_t := { width := width, height := height, address := 0x3C,
                           buffer := fun _ => 0 }
  (dev, init_sequence.foldl (fun b cmd => ssd1306_send_command dev cmd b) bus)

/-- Source `ssd1306_clear(dev)`: `memset(dev->buffer, 0, sizeof(dev->buffer))`. -/
def ssd1306_clear (dev : ssd1306_t) : ssd1306_t :=
  { dev with buffer := fun _ => 0 }

/-- The bytes `buffer[start .. start + len - 1]`, or a bounds fault when that range
leaves the 1024-byte buffer. -/
def read_bytes (buffer : Fin 1024 → U8) (start len : Nat) : Except Fault (List U8) :=
  (List.range len).mapM fun i =>
    if h : start + i < 1024 then .ok (buffer ⟨start + i, h⟩) else .error Fault.bounds

/-- Source `ssd1306_show(dev)`: for every page the three addressing commands, then the page's
`width` bytes as one data transfer. -/
def ssd1306_show (dev : ssd1306_t) (bus : List I2CWrite) : Except Fault (List I2CWrite) :=
  (List.range (dev.height.val / 8)).foldlM (fun bus page => do
    let bus := ssd1306_send_command dev (U8.ofNat (0xB0 + page)) bus
    let bus := ssd1306_send_command dev 0x00 bus
    let bus := ssd1306_send_command dev 0x10 bus
    let data ← read_bytes dev.buffer (page * dev.width.val) dev.width.val
    pure (ssd1306_send_data dev data bus)) bus

/-- Source `ssd1306_draw_pixel(dev, x, y, color)`. The index is computed in 16 bits and the
mask in 8 bits; `&= ~bit_mask` keeps, within the byte, the bits of `255 ^ bit_mask`.
A byte index outside the 1024-byte buffer is a bounds fault. -/
def ssd1306_draw_pixel (dev : ssd1306_t) (x y : U8) (color : Bool) :
    Except Fault ssd1306_t :=
  if x.val ≥ dev.width.val ∨ y.val ≥ dev.height.val then .ok dev
  else
    let byte_index : Nat := ((y.val / 8) * dev.width.val + x.val) % 65536
    let bit_mask : Nat := (1 <<< (y.val % 8)) % 256
    if h : byte_index < 1024 then
      let old : Nat := (dev.buffer ⟨byte_index, h⟩).val
      let new : Nat := if color then old ||| bit_mask else old &&& (255 ^^^ bit_mask)
      .ok { dev with buffer := fun i => if i = ⟨byte_index, h⟩ then U8.ofNat new
                                        else dev.buffer i }
    else .error Fault.bounds

/-- Source `ssd1306_draw_rect_fill(dev, x, y, w, h, fill)` of main.cpp: the sums `x + dx` and
`y + dy` are narrowed to `uint8_t` when passed to ssd1306_draw_pixel. -/
def ssd1306_draw_rect_fill (dev : ssd1306_t) (x y w h : U8) (fill : Bool) :
    Except Fault ssd1306_t :=
  (List.range w.val).foldlM (fun dev dx =>
    (List.range h.val).foldlM (fun dev dy =>
      ssd1306_draw_pixel dev (U8.ofNat (x.val + dx)) (U8.ofNat (y.val + dy)) fill) dev) dev

/-! ## Game state and main loop -/

/-- The globals of main.cpp, the two flags local to `main`, and the logs of the LED
pulses and I2C writes made so far. -/
structure State where
  grid : Grid
  display : ssd1306_t
  current_shape : Fin 10
  current_rotation : Fin 4
  block_x : Int
  block_y : Int
  game_over : Bool
  game_over_led_flashed : Bool
  needs_redraw : Bool
  game_over_displayed : Bool
  led : List Nat
  bus : List I2CWrite

/-- Source `draw_game()`: clear the buffer, one 8x8 block per occupied grid cell, one per cell
of the falling piece that lies inside the grid, then push the buffer to the panel. -/
def draw_game (s : State) : Except Fault State := do
  let dev := ssd1306_clear s.display
  let dev ← (List.finRange 8).foldlM (fun dev y =>
    (List.finRange 16).foldlM (fun dev x =>
      if s.grid.cells y x ≠ 0 then
        ssd1306_draw_rect_fill dev (U8.ofNat (x.val * 8)) (U8.ofNat (y.val * 8)) 8 8 true
      else pure dev) dev) dev
  let dev ← (List.range 4).foldlM (fun dev py =>
    (List.range 4).foldlM (fun dev px =>
      if tetromino_cell s.current_shape s.current_rotation px py then
        let gx : Int := s.block_x + px
        let gy : Int := s.block_y + py
        if gx ≥ 0 ∧ gx < 16 ∧ gy ≥ 0 ∧ gy < 8 then
          ssd1306_draw_rect_fill dev (U8.ofInt (gx * 8)) (U8.ofInt (gy * 8)) 8 8 true
        else pure dev
      else pure dev) dev) dev
  let bus ← ssd1306_show dev s.bus
  pure { s with display := dev, bus := bus }

/-- Source `spawn_piece()`; `r` is the value returned by `rand()`. -/
def spawn_piece (r : Nat) (s : State) : State :=
  let s := { s with current_shape := ⟨r % 10, Nat.mod_lt _ (by decide)⟩,
                    current_rotation := 0,
                    block_x := ((GRID_WIDTH / 2 - 2 : Nat) : Int),
                    block_y := 0 }
  if check_collision_shape s.grid s.block_x s.block_y s.current_shape s.current_rotation then
    { s with game_over := true }
  else s

/-- Source `reset_game()`; `r` is the value returned by `rand()` in spawn_piece. -/
def reset_game (r : Nat) (s : State) : Except Fault State :=
  let s := { s with grid :=
    (List.finRange 8).foldl (fun g y =>
      (List.finRange 16).foldl (fun g x => g.set y x 0) g) s.grid }
  let s := { s with game_over := false }
  let s := { s with game_over_led_flashed := false }
  let s := spawn_piece r s
  draw_game s

/-- What one pass of the main loop reads from outside: the three buttons (true when
pressed, that is when `gpio_get` returns 0), whether more than 150 ms have passed since
the last accepted input, whether more than `fall_interval_ms` have passed since the last
fall, and the value `rand()` returns if it is called. -/
structure Input where
  left : Bool
  right : Bool
  down : Bool
  debounce_elapsed : Bool
  fall_elapsed : Bool
  rand : Nat

/-- The input handling of the playing branch (the debounce test and the
`if / else if / else if` on the three buttons); returns the state and `moved`. -/
def input_step (inp : Input) (s : State) : State × Bool :=
  if inp.debounce_elapsed then
    if inp.left ∧ ¬ check_collision_shape s.grid (s.block_x - 1) s.block_y
        s.current_shape s.current_rotation then
      ({ s with block_x := s.block_x - 1 }, true)
    else if inp.right ∧ ¬ check_collision_shape s.grid (s.block_x + 1) s.block_y
        s.current_shape s.current_rotation then
      ({ s with block_x := s.block_x + 1 }, true)
    else if inp.down ∧ ¬ check_collision_shape s.grid s.block_x (s.block_y + 1)
        s.current_shape s.current_rotation then
      ({ s with block_y := s.block_y + 1 }, true)
    else (s, false)
  else (s, false)

/-- The body of the fall-timer test of the playing branch: move down, or lock, pulse
the LED, clear lines and spawn. -/
def gravity_step (fuel : Nat) (r : Nat) (s : State) : Except Fault State :=
  if ¬ check_collision_shape s.grid s.block_x (s.block_y + 1)
      s.current_shape s.current_rotation then
    .ok { s with block_y := s.block_y + 1 }
  else
    let s := { s with grid := lock_shape s.grid s.block_x s.block_y
                                s.current_shape s.current_rotation }
    let s := { s with led := led_flash 100 s.led }
    match clear_lines fuel s.grid s.led with
    | .ok (grid1, led1) => .ok (spawn_piece r { s with grid := grid1, led := led1 })
    | .error e => .error e

/-- The first part of the branch `if (!game_over)` of the main loop: the flag
`game_over_displayed` is reset, the input is handled, and when the fall timer has expired
the gravity step runs; both set `needs_redraw`. -/
def playing_update (fuel : Nat) (inp : Input) (s : State) : Except Fault State :=
  let s := { s with game_over_displayed := false }
  let r := input_step inp s
  let s := if r.2 then { r.1 with needs_redraw := true } else r.1
  if inp.fall_elapsed then
    (gravity_step fuel inp.rand s).map fun s => { s with needs_redraw := true }
  else pure s

/-- The last part of the branch `if (!game_over)`: redraw when `needs_redraw` is set. -/
def redraw_if_needed (s : State) : Except Fault State :=
  if s.needs_redraw then
    (draw_game s).map fun s => { s with needs_redraw := false }
  else pure s

/-- The branch `if (!game_over)` of the main loop. -/
def playing_iteration (fuel : Nat) (inp : Input) (s : State) : Except Fault State :=
  playing_update fuel inp s >>= redraw_if_needed

/-- The `else` branch of the main loop (game over). -/
def game_over_iteration (inp : Input) (s : State) : Except Fault State := do
  let s ← if ¬ s.game_over_displayed then
      (ssd1306_show (ssd1306_clear s.display) s.bus).map fun bus =>
        { s with display := ssd1306_clear s.display, bus := bus,
                 game_over_displayed := true }
    else pure s
  let s := if ¬ s.game_over_led_flashed then
      { s with led := led_flash 300 s.led, game_over_led_flashed := true }
    else s
  if inp.down then reset_game inp.rand s else pure s

/-- One pass of `while (true)` in `main`. -/
def main_loop_iteration (fuel : Nat) (inp : Input) (s : State) : Except Fault State :=
  if ¬ s.game_over then playing_iteration fuel inp s else game_over_iteration inp s

/-- The main loop run on a sequence of input samples, one pass per sample. -/
def run_loop (fuel : Nat) (inputs : List Input) (s : State) : Except Fault State :=
  inputs.foldlM (fun s inp => main_loop_iteration fuel inp s) s

/-- The values of the globals before `main` runs. -/
def initial_state : State :=
  { grid := Grid.empty
    display := { width := 0, height := 0, address := 0, buffer := fun _ => 0 }
    current_shape := 0
    current_rotation := 0
    block_x := ((GRID_WIDTH / 2 - 2 : Nat) : Int)
    block_y := 0
    game_over := false
    game_over_led_flashed := false
    needs_redraw := false
    game_over_displayed := false
    led := []
    bus := [] }

/-- The part of `main` before the loop: the panel is set up as 128x64, the game is
reset, and the two local flags get their initial values. -/
def main_setup (r : Nat) : Except Fault State :=
  let (dev, bus) := ssd1306_init 128 64 initial_state.bus
  (reset_game r { initial_state with display := dev, bus := bus }).map fun s =>
    { s with needs_redraw := true, game_over_displayed := false }

/-! ## Notions used in the statements -/

/-- The pattern cell (px,py) of the piece anchored at (x,y) is occupied and lands on grid
cell (r,c). -/
def covers (x y : Int) (shape : Fin 10) (rotation : Fin 4) (r : Fin 8) (c : Fin 16)
    (px py : Nat) : Prop :=
  tetromino_cell shape rotation px py = true ∧ (c.val : Int) = x + px ∧ (r.val : Int) = y + py

/-- The rows of the grid from top (row 0) to bottom (row 7). -/
def Grid.rows (g : Grid) : List Row := List.ofFn g.cells

/-- The row with every cell empty. -/
def Row.zero : Row := fun _ => 0

/-- A row is full when all of its 16 cells are occupied. -/
def Row.is_full (row : Row) : Bool := decide (∀ c : Fin 16, row c ≠ 0)

/-- The number of full rows of the grid. -/
def Grid.full_rows (g : Grid) : Nat := (g.rows.filter Row.is_full).length

/-- The offsets of the three directions in the order the source tests them, each with
its button. -/
def directions (inp : Input) : List (Bool × Int × Int) :=
  [(inp.left, -1, 0), (inp.right, 1, 0), (inp.down, 0, 1)]

/-- The offset of the first direction, in the order Left, Right, Down, that is pressed
and whose candidate position does not collide; (0,0) when there is none. -/
def first_free_offset (inp : Input) (s : State) : Int × Int :=
  match (directions inp).find? (fun d => d.1 &&
      !check_collision_shape s.grid (s.block_x + d.2.1) (s.block_y + d.2.2)
        s.current_shape s.current_rotation) with
  | some d => d.2
  | none => (0, 0)

/-- The panel has the geometry `main` gives it: 128 columns, 64 rows. -/
def panel_ok (dev : ssd1306_t) : Prop := dev.width = 128 ∧ dev.height = 64

/-- The state of the end-to-end scenario after k accepted Down moves, up to the panel
contents and the flags: empty grid, the square (shape 3, rotation 0) at anchor (6,k),
not game over, the LED log `led`, the 128x64 panel. -/
def falling_square (led : List Nat) (k : Nat) (s : State) : Prop :=
  s.grid = Grid.empty ∧ s.current_shape = 3 ∧ s.current_rotation = 0 ∧ s.block_x = 6 ∧
  s.block_y = (k : Int) ∧ s.game_over = false ∧ s.led = led ∧ panel_ok s.display

/-- The byte `buffer[i]` of the framebuffer; 0 when `i` is outside the buffer. -/
def byte_at (buffer : Fin 1024 → U8) (i : Nat) : U8 :=
  if h : i < 1024 then buffer ⟨i, h⟩ else 0

/-- The four I2C writes expected for page `p` of a 128-column panel: the commands
0xB0+p, 0x00 and 0x10 (each after the control byte 0x00), then one data transfer (after
the control byte 0x40) of the 128 bytes `buffer[p*128 .. p*128+127]` from left to right. -/
def page_group (dev : ssd1306_t) (p : Nat) : List I2CWrite :=
  [⟨dev.address, [0x00, U8.ofNat (0xB0 + p)]⟩,
   ⟨dev.address, [0x00, 0x00]⟩,
   ⟨dev.address, [0x00, 0x10]⟩,
   ⟨dev.address, 0x40 :: (List.range 128).map fun i => byte_at dev.buffer (p * 128 + i)⟩]

/-- Pixel (px,py) of the surface: bit `py mod 8` of the byte at index
`(py / 8) * width + px` of the framebuffer. -/
def pixel_at (dev : ssd1306_t) (px py : Nat) : Bool :=
  (byte_at dev.buffer ((py / 8) * dev.width.val + px)).val.testBit (py % 8)

/-- Going from `dev` to `dev1` the 128x64 geometry and the address are kept, every pixel
of the surface for which `H` holds gets the colour `c`, and every other pixel of the
surface keeps its value. -/
def Paints (c : Bool) (H : Nat → Nat → Prop) (dev dev1 : ssd1306_t) : Prop :=
  panel_ok dev1 ∧ dev1.address = dev.address ∧
  ∀ px py : Nat, px < 128 → py < 64 →
    (H px py ∧ pixel_at dev1 px py = c) ∨
    (¬ H px py ∧ pixel_at dev1 px py = pixel_at dev px py)

/-- A state the main loop can be entered with: the state after the set-up part of `main`,
or the state right after a call of reset_game made in any state. -/
def Start (s : State) : Prop :=
  (∃ r, main_setup r = .ok s) ∨ (∃ r s0, reset_game r s0 = .ok s)

/-- One pass of the main loop takes `s` to `s1`, for some input sample. -/
def Step (s s1 : State) : Prop :=
  ∃ fuel inp, main_loop_iteration fuel inp s = .ok s1

/-- The states of the program between two passes of the main loop: a start state, and
every state a pass of the loop produces from a reachable state. -/
inductive Reachable : State → Prop where
  /-- A start state is reachable. -/
  | start (s : State) : Start s → Reachable s
  /-- The state after one more pass of the main loop is reachable. -/
  | step (s s1 : State) : Reachable s → Step s s1 → Reachable s1

/-- The active piece does not collide with the grid or its boundaries, unless the game
is over. -/
def piece_fits (s : State) : Prop :=
  s.game_over = true ∨
  check_collision_shape s.grid s.block_x s.block_y s.current_shape s.current_rotation = false

/-! ## Sample grids, states and inputs -/

/-- The grid with every cell occupied. -/
def Grid.full : Grid := ⟨fun _ _ => 1⟩

/-- The initial globals with a grid that is occupied everywhere. -/
def blocked_state : State := { initial_state with grid := Grid.full }

/-- A grid whose rows 2, 3 and 5 are full and whose other rows are empty. -/
def grid_2_3_5 : Grid := ⟨fun r _ => if r.val = 2 ∨ r.val = 3 ∨ r.val = 5 then 1 else 0⟩

/-- A grid whose rows 2 and 3 are full; rows 1 and 6 hold one block each. -/
def grid_2_3 : Grid :=
  ⟨fun r c => if r.val = 2 ∨ r.val = 3 then 1
    else if (r.val = 1 ∧ c.val = 7) ∨ (r.val = 6 ∧ c.val = 3) then 1 else 0⟩

/-- The panel as `main` sets it up: 128x64, address 0x3C, buffer zeroed. -/
def panel_128x64 : ssd1306_t := (ssd1306_init 128 64 []).1

/-- A surface of width 255 and height 255, which the 1024-byte buffer cannot hold. -/
def panel_255x255 : ssd1306_t :=
  { width := 255, height := 255, address := 0x3C, buffer := fun _ => 0 }

/-- The square (shape 3) hanging over the left wall: anchor (-1,0), empty grid. -/
def square_at_left_wall : State :=
  { initial_state with current_shape := 3, block_x := -1 }

/-- A sample in which Left and Down are pressed and the debounce time has passed. -/
def left_and_down : Input :=
  { left := true, right := false, down := true, debounce_elapsed := true,
    fall_elapsed := false, rand := 0 }

/-- A sample in which only Down is pressed, the debounce time has passed and the fall
timer has not expired. -/
def down_press : Input :=
  { left := false, right := false, down := true, debounce_elapsed := true,
    fall_elapsed := false, rand := 0 }

/-- A sample in which no button is pressed and the fall timer has expired; `r` is what
`rand()` returns. -/
def fall_tick (r : Nat) : Input :=
  { left := false, right := false, down := false, debounce_elapsed := false,
    fall_elapsed := true, rand := r }

/-- The start of the end-to-end scenario: empty grid, the square (shape 3, rotation 0)
at anchor (6,0), the 128x64 panel. -/
def square_start : State :=
  { initial_state with display := panel_128x64, current_shape := 3 }

/-- The state `main` enters its loop with when `rand()` returns `r` (the initial globals
if the set-up faulted, which it never does). -/
def state_after_setup (r : Nat) : State :=
  match main_setup r with
  | .ok s => s
  | .error _ => initial_state

/-- A game-over state on the 128x64 panel with every grid cell occupied. -/
def game_over_state : State :=
  { initial_state with grid := Grid.full, display := panel_128x64, game_over := true,
                       current_shape := 5, block_x := 3, block_y := 2 }

/-- A sample in which Left and Right are pressed, Down is not, and both timers have
expired. -/
def left_right_fall : Input :=
  { left := true, right := true, down := false, debounce_elapsed := true,
    fall_elapsed := true, rand := 7 }

/-! ## Properties -/

theorem Grid.cell_ne_zero_iff (g : Grid) (gy gx : Int) :
    g.cell gy gx ≠ 0 ↔
      ∃ (r : Fin 8) (c : Fin 16), (r.val : Int) = gy ∧ (c.val : Int) = gx ∧ g.cells r c ≠ 0 := by
  unfold Grid.cell
  constructor
  · intro h
    split at h
    · rename_i hb
      exact ⟨⟨gy.toNat, by omega⟩, ⟨gx.toNat, by omega⟩, by simp; omega, by simp; omega, h⟩
    · exact absurd rfl h
  · rintro ⟨r, c, hr, hc, h⟩
    have hb : 0 ≤ gy ∧ gy < 8 ∧ 0 ≤ gx ∧ gx < 16 := by omega
    rw [dif_pos hb]
    have e1 : (⟨gy.toNat, by omega⟩ : Fin 8) = r := by ext; simp; omega
    have e2 : (⟨gx.toNat, by omega⟩ : Fin 16) = c := by ext; simp; omega
    rw [e1, e2]; exact h

theorem wrap32_eq (i : Int) (h1 : -2147483648 ≤ i) (h2 : i ≤ 2147483647) : wrap32 i = i := by
  unfold wrap32
  omega

/-- A sum that exceeds the greatest `int` by at most 3 wraps to a negative value. -/
theorem wrap32_overflow (i : Int) (h1 : 2147483647 < i) (h2 : i ≤ 2147483650) :
    wrap32 i < 0 := by
  unfold wrap32
  omega

/-- For an `int` anchor and an offset below 4 the wrapped sum lies in a range 0..n-1 of
grid indices exactly when the plain sum does, and then the two are equal. -/
theorem wrap32_in_grid (x : Int) (p : Nat) (n : Int) (hp : p < 4) (hn : n ≤ 16)
    (h1 : -2147483648 ≤ x) (h2 : x ≤ 2147483647) :
    ((0 ≤ wrap32 (x + p) ∧ wrap32 (x + p) < n) ↔ (0 ≤ x + p ∧ x + p < n)) ∧
    (0 ≤ wrap32 (x + p) → wrap32 (x + p) = x + p) := by
  unfold wrap32
  omega

/-- The result of check_collision_shape in terms of the 32-bit sums, for every anchor. -/
theorem collision_wrap_iff (grid : Grid) (x y : Int) (shape : Fin 10)
    (rotation : Fin 4) :
    check_collision_shape grid x y shape rotation = true ↔
      ∃ px py : Nat, px < 4 ∧ py < 4 ∧ tetromino_cell shape rotation px py = true ∧
        (wrap32 (x + px) < 0 ∨ wrap32 (x + px) ≥ 16 ∨ wrap32 (y + py) ≥ 8 ∨
          (wrap32 (y + py) ≥ 0 ∧ ∃ (r : Fin 8) (c : Fin 16),
            (r.val : Int) = wrap32 (y + py) ∧ (c.val : Int) = wrap32 (x + px) ∧
              grid.cells r c ≠ 0)) := by
  unfold check_collision_shape
  simp only [List.any_eq_true, List.mem_range]
  constructor
  · rintro ⟨py, hpy, px, hpx, h⟩
    refine ⟨px, py, hpx, hpy, ?_⟩
    by_cases hc : tetromino_cell shape rotation px py = true
    · rw [if_pos hc] at h
      refine ⟨hc, ?_⟩
      by_cases hb : wrap32 (x + (px : Int)) < 0 ∨ wrap32 (x + (px : Int)) ≥ 16 ∨
          wrap32 (y + (py : Int)) ≥ 8
      · rcases hb with hb | hb | hb
        · exact Or.inl hb
        · exact Or.inr (Or.inl hb)
        · exact Or.inr (Or.inr (Or.inl hb))
      · simp only [if_neg hb] at h
        by_cases ho : wrap32 (y + (py : Int)) ≥ 0 ∧
            grid.cell (wrap32 (y + py)) (wrap32 (x + px)) ≠ 0
        · exact Or.inr (Or.inr (Or.inr ⟨ho.1, (Grid.cell_ne_zero_iff _ _ _).1 ho.2⟩))
        · simp only [if_neg ho] at h
          exact absurd h (by decide)
    · rw [if_neg hc] at h
      exact absurd h (by decide)
  · rintro ⟨px, py, hpx, hpy, hc, h⟩
    refine ⟨py, hpy, px, hpx, ?_⟩
    rw [if_pos hc]
    by_cases hb : wrap32 (x + (px : Int)) < 0 ∨ wrap32 (x + (px : Int)) ≥ 16 ∨
        wrap32 (y + (py : Int)) ≥ 8
    · simp only [if_pos hb]
    · simp only [if_neg hb]
      have ho : wrap32 (y + (py : Int)) ≥ 0 ∧
          grid.cell (wrap32 (y + py)) (wrap32 (x + px)) ≠ 0 := by
        rcases h with h | h | h | ⟨h1, h2⟩
        · exact absurd (Or.inl h) hb
        · exact absurd (Or.inr (Or.inl h)) hb
        · exact absurd (Or.inr (Or.inr h)) hb
        · exact ⟨h1, (Grid.cell_ne_zero_iff _ _ _).2 h2⟩
      rw [if_pos ho]

/-- The result of check_collision_shape in terms of the plain sums x+px, y+py, for an
`int` anchor whose y is at most 2147483644, so that `y + py` does not overflow. (An
overflow of `x + px` wraps to a negative column, which collides as the plain sum does.) -/
theorem collision_true_iff (grid : Grid) (x y : Int) (shape : Fin 10)
    (rotation : Fin 4) (hx1 : -2147483648 ≤ x) (hx2 : x ≤ 2147483647)
    (hy1 : -2147483648 ≤ y) (hy2 : y ≤ 2147483644) :
    check_collision_shape grid x y shape rotation = true ↔
      ∃ px py : Nat, px < 4 ∧ py < 4 ∧ tetromino_cell shape rotation px py = true ∧
        (x + px < 0 ∨ x + px ≥ 16 ∨ y + py ≥ 8 ∨
          (y + py ≥ 0 ∧ ∃ (r : Fin 8) (c : Fin 16),
            (r.val : Int) = y + py ∧ (c.val : Int) = x + px ∧ grid.cells r c ≠ 0)) := by
  rw [collision_wrap_iff]
  have key : ∀ px py : Nat, px < 4 → py < 4 →
      ((wrap32 (x + px) < 0 ∨ wrap32 (x + px) ≥ 16 ∨ wrap32 (y + py) ≥ 8 ∨
          (wrap32 (y + py) ≥ 0 ∧ ∃ (r : Fin 8) (c : Fin 16),
            (r.val : Int) = wrap32 (y + py) ∧ (c.val : Int) = wrap32 (x + px) ∧
              grid.cells r c ≠ 0)) ↔
        (x + px < 0 ∨ x + px ≥ 16 ∨ y + py ≥ 8 ∨
          (y + py ≥ 0 ∧ ∃ (r : Fin 8) (c : Fin 16),
            (r.val : Int) = y + py ∧ (c.val : Int) = x + px ∧ grid.cells r c ≠ 0))) := by
    intro px py hpx hpy
    have ey : wrap32 (y + (py : Int)) = y + py := wrap32_eq _ (by omega) (by omega)
    rw [ey]
    by_cases hov : x + (px : Int) ≤ 2147483647
    · have ex : wrap32 (x + (px : Int)) = x + px := wrap32_eq _ (by omega) hov
      rw [ex]
    · have hneg : wrap32 (x + (px : Int)) < 0 := wrap32_overflow _ (by omega) (by omega)
      exact ⟨fun _ => Or.inr (Or.inl (by omega)), fun _ => Or.inl hneg⟩
  constructor
  · rintro ⟨px, py, hpx, hpy, hc, h⟩
    exact ⟨px, py, hpx, hpy, hc, (key px py hpx hpy).1 h⟩
  · rintro ⟨px, py, hpx, hpy, hc, h⟩
    exact ⟨px, py, hpx, hpy, hc, (key px py hpx hpy).2 h⟩

/-- C1 (as the code has it): for an `int` anchor (x,y), negative values included, whose y
is at most 2147483644 (so that the 32-bit sum y+py does not overflow),
check_collision_shape returns true exactly when some occupied cell (px,py) of the 4x4
pattern maps to gx = x+px, gy = y+py with gx < 0, gx ≥ 16, gy ≥ 8, or to a grid cell
(gy ≥ 0) that is occupied; otherwise it returns false. -/
theorem check_collision_shape_iff (grid : Grid) (x y : Int) (shape : Fin 10)
    (rotation : Fin 4) (hx1 : -2147483648 ≤ x) (hx2 : x ≤ 2147483647)
    (hy1 : -2147483648 ≤ y) (hy2 : y ≤ 2147483644) :
    (check_collision_shape grid x y shape rotation = true ↔
      ∃ px py : Nat, px < 4 ∧ py < 4 ∧ tetromino_cell shape rotation px py = true ∧
        (x + px < 0 ∨ x + px ≥ 16 ∨ y + py ≥ 8 ∨
          (y + py ≥ 0 ∧ ∃ (r : Fin 8) (c : Fin 16),
            (r.val : Int) = y + py ∧ (c.val : Int) = x + px ∧ grid.cells r c ≠ 0))) ∧
    (check_collision_shape grid x y shape rotation = false ↔
      ¬ ∃ px py : Nat, px < 4 ∧ py < 4 ∧ tetromino_cell shape rotation px py = true ∧
        (x + px < 0 ∨ x + px ≥ 16 ∨ y + py ≥ 8 ∨
          (y + py ≥ 0 ∧ ∃ (r : Fin 8) (c : Fin 16),
            (r.val : Int) = y + py ∧ (c.val : Int) = x + px ∧ grid.cells r c ≠ 0))) := by
  refine ⟨collision_true_iff grid x y shape rotation hx1 hx2 hy1 hy2, ?_⟩
  rw [← collision_true_iff grid x y shape rotation hx1 hx2 hy1 hy2]
  simp

/-- Witness for C1: the square at anchor (14,-1) on the empty grid reaches column 16. -/
theorem check_collision_shape_iff_witness :
    (-2147483648 : Int) ≤ 14 ∧ (14 : Int) ≤ 2147483647 ∧ (-2147483648 : Int) ≤ -1 ∧
    (-1 : Int) ≤ 2147483644 ∧
    (check_collision_shape Grid.empty 14 (-1) 3 0 = true ↔
      ∃ px py : Nat, px < 4 ∧ py < 4 ∧ tetromino_cell 3 0 px py = true ∧
        ((14 : Int) + px < 0 ∨ (14 : Int) + px ≥ 16 ∨ (-1 : Int) + py ≥ 8 ∨
          ((-1 : Int) + py ≥ 0 ∧ ∃ (r : Fin 8) (c : Fin 16),
            (r.val : Int) = (-1 : Int) + py ∧ (c.val : Int) = (14 : Int) + px ∧
              Grid.empty.cells r c ≠ 0))) :=
  ⟨by decide, by decide, by decide, by decide,
    (check_collision_shape_iff Grid.empty 14 (-1) 3 0 (by decide) (by decide) (by decide)
      (by decide)).1⟩

/-- C1 fails as stated: at the anchor (6, 2147483647) on the empty grid the I piece
(shape 0, rotation 0, pattern 0x0F00) has its occupied cell (0,1) at y + py = 2147483648,
which is 8 or more, yet check_collision_shape returns false: the 32-bit sum wraps to a
negative row, and rows above the grid are ignored. -/
theorem check_collision_shape_iff_counterexample :
    check_collision_shape Grid.empty 6 2147483647 0 0 = false ∧
    ∃ px py : Nat, px < 4 ∧ py < 4 ∧ tetromino_cell 0 0 px py = true ∧
      ((6 : Int) + px < 0 ∨ (6 : Int) + px ≥ 16 ∨ (2147483647 : Int) + py ≥ 8 ∨
        ((2147483647 : Int) + py ≥ 0 ∧ ∃ (r : Fin 8) (c : Fin 16),
          (r.val : Int) = (2147483647 : Int) + py ∧ (c.val : Int) = (6 : Int) + px ∧
            Grid.empty.cells r c ≠ 0)) :=
  ⟨by decide, 0, 1, by decide, by decide, by decide, Or.inr (Or.inr (Or.inl (by decide)))⟩

/-! ### lock_shape -/

theorem Grid.cells_set (g : Grid) (r : Fin 8) (c : Fin 16) (v : Cell) (r1 : Fin 8) (c1 : Fin 16) :
    (g.set r c v).cells r1 c1 = if r1 = r ∧ c1 = c then v else g.cells r1 c1 := rfl

/-- A loop whose every step either writes 1 into cell (r,c) (when `hit`) or leaves that cell
alone ends with 1 there if some step hit, and with the old value otherwise. -/
theorem foldl_cells_hit {α : Type} (f : Grid → α → Grid) (hit : α → Prop) (r : Fin 8)
    (c : Fin 16)
    (hf : ∀ g a, (hit a ∧ (f g a).cells r c = 1) ∨ (¬ hit a ∧ (f g a).cells r c = g.cells r c)) :
    ∀ (l : List α) (g : Grid),
      ((∃ a ∈ l, hit a) ∧ (l.foldl f g).cells r c = 1) ∨
      ((¬ ∃ a ∈ l, hit a) ∧ (l.foldl f g).cells r c = g.cells r c) := by
  intro l
  induction l with
  | nil => intro g; right; simp
  | cons a l ih =>
    intro g
    rw [List.foldl_cons]
    rcases ih (f g a) with ⟨⟨b, hb, hh⟩, h1⟩ | ⟨hn, h1⟩
    · left; exact ⟨⟨b, List.mem_cons_of_mem _ hb, hh⟩, h1⟩
    · rcases hf g a with ⟨ha, h2⟩ | ⟨ha, h2⟩
      · left; exact ⟨⟨a, List.mem_cons_self _ _, ha⟩, by rw [h1, h2]⟩
      · right
        refine ⟨?_, by rw [h1, h2]⟩
        rintro ⟨b, hb, hh⟩
        rcases List.mem_cons.1 hb with rfl | hb
        · exact ha hh
        · exact hn ⟨b, hb, hh⟩

theorem lock_shape_cells (grid : Grid) (x y : Int) (shape : Fin 10) (rotation : Fin 4)
    (r : Fin 8) (c : Fin 16) :
    ((∃ py ∈ List.range 4, ∃ px ∈ List.range 4, covers x y shape rotation r c px py) ∧
        (lock_shape grid x y shape rotation).cells r c = 1) ∨
    ((¬ ∃ py ∈ List.range 4, ∃ px ∈ List.range 4, covers x y shape rotation r c px py) ∧
        (lock_shape grid x y shape rotation).cells r c = grid.cells r c) := by
  unfold lock_shape
  apply foldl_cells_hit _ (fun py => ∃ px ∈ List.range 4, covers x y shape rotation r c px py)
  intro g py
  apply foldl_cells_hit _ (fun px => covers x y shape rotation r c px py)
  intro g px
  unfold covers
  by_cases hc : tetromino_cell shape rotation px py = true
  · simp only [hc, if_true, true_and]
    by_cases hb : x + (px : Int) ≥ 0 ∧ x + (px : Int) < 16 ∧ y + (py : Int) ≥ 0 ∧ y + (py : Int) < 8
    · rw [dif_pos hb, Grid.cells_set]
      by_cases hrc : (c.val : Int) = x + px ∧ (r.val : Int) = y + py
      · left
        refine ⟨hrc, ?_⟩
        rw [if_pos]
        constructor
        · ext; simp only []; omega
        · ext; simp only []; omega
      · right
        refine ⟨hrc, ?_⟩
        rw [if_neg]
        rintro ⟨h1, h2⟩
        apply hrc
        subst h1 h2
        simp only []
        omega
    · rw [dif_neg hb]
      right
      refine ⟨?_, rfl⟩
      rintro ⟨h1, h2⟩
      apply hb
      have := r.isLt; have := c.isLt
      omega
  · right
    simp only [hc, Bool.false_eq_true, if_false, false_and, not_false_eq_true, and_self]

/-- The cells of the locked grid, without the loop lists. -/
theorem lock_shape_cells_eq (grid : Grid) (x y : Int) (shape : Fin 10) (rotation : Fin 4)
    (r : Fin 8) (c : Fin 16) :
    ((∃ px py : Nat, px < 4 ∧ py < 4 ∧ covers x y shape rotation r c px py) ∧
        (lock_shape grid x y shape rotation).cells r c = 1) ∨
    ((¬ ∃ px py : Nat, px < 4 ∧ py < 4 ∧ covers x y shape rotation r c px py) ∧
        (lock_shape grid x y shape rotation).cells r c = grid.cells r c) := by
  have e : (∃ py ∈ List.range 4, ∃ px ∈ List.range 4, covers x y shape rotation r c px py) ↔
      ∃ px py : Nat, px < 4 ∧ py < 4 ∧ covers x y shape rotation r c px py := by
    simp only [List.mem_range]
    constructor
    · rintro ⟨py, hpy, px, hpx, h⟩; exact ⟨px, py, hpx, hpy, h⟩
    · rintro ⟨px, py, hpx, hpy, h⟩; exact ⟨py, hpy, px, hpx, h⟩
  rw [← e]
  exact lock_shape_cells grid x y shape rotation r c

/-- C6: after lock_shape a grid cell (gx,gy) is occupied exactly when it was occupied
before or the pattern is occupied at the offsets (gx-x, gy-y), both in [0,4); a cell that
was occupied stays occupied, and a cell the pattern does not cover keeps its value. -/
theorem lock_shape_occupied_iff (grid : Grid) (x y : Int) (shape : Fin 10)
    (rotation : Fin 4) (gy : Fin 8) (gx : Fin 16) :
    ((lock_shape grid x y shape rotation).cells gy gx ≠ 0 ↔
      (grid.cells gy gx ≠ 0 ∨
        ∃ px py : Nat, px < 4 ∧ py < 4 ∧ (gx.val : Int) - x = px ∧ (gy.val : Int) - y = py ∧
          tetromino_cell shape rotation px py = true)) ∧
    (grid.cells gy gx ≠ 0 → (lock_shape grid x y shape rotation).cells gy gx ≠ 0) ∧
    ((¬ ∃ px py : Nat, px < 4 ∧ py < 4 ∧ (gx.val : Int) - x = px ∧ (gy.val : Int) - y = py ∧
          tetromino_cell shape rotation px py = true) →
      (lock_shape grid x y shape rotation).cells gy gx = grid.cells gy gx) := by
  have e : (∃ px py : Nat, px < 4 ∧ py < 4 ∧ (gx.val : Int) - x = px ∧
        (gy.val : Int) - y = py ∧ tetromino_cell shape rotation px py = true) ↔
      ∃ px py : Nat, px < 4 ∧ py < 4 ∧ covers x y shape rotation gy gx px py := by
    unfold covers
    constructor
    · rintro ⟨px, py, hpx, hpy, h1, h2, h3⟩
      exact ⟨px, py, hpx, hpy, h3, by omega, by omega⟩
    · rintro ⟨px, py, hpx, hpy, h3, h1, h2⟩
      exact ⟨px, py, hpx, hpy, by omega, by omega, h3⟩
  rw [e]
  rcases lock_shape_cells_eq grid x y shape rotation gy gx with ⟨hc, hv⟩ | ⟨hc, hv⟩
  · refine ⟨?_, ?_, fun h => absurd hc h⟩
    · rw [hv]; exact ⟨fun _ => Or.inr hc, fun _ => by decide⟩
    · intro _; rw [hv]; decide
  · refine ⟨?_, ?_, fun _ => hv⟩
    · rw [hv]; exact ⟨fun h => Or.inl h, fun h => h.elim id (fun h => absurd h hc)⟩
    · intro h; rw [hv]; exact h

/-- After lock_shape the same piece at the same `int` anchor, y at most 2147483644,
collides exactly when one of its occupied cells lies in a row gy ≥ 0 or in a column
outside 0..15. -/
theorem lock_then_collision_iff (grid : Grid) (x y : Int) (shape : Fin 10)
    (rotation : Fin 4) (hx1 : -2147483648 ≤ x) (hx2 : x ≤ 2147483647)
    (hy1 : -2147483648 ≤ y) (hy2 : y ≤ 2147483644) :
    check_collision_shape (lock_shape grid x y shape rotation) x y shape rotation = true ↔
      ∃ px py : Nat, px < 4 ∧ py < 4 ∧ tetromino_cell shape rotation px py = true ∧
        (x + px < 0 ∨ x + px ≥ 16 ∨ y + py ≥ 0) := by
  rw [collision_true_iff _ x y shape rotation hx1 hx2 hy1 hy2]
  constructor
  · rintro ⟨px, py, hpx, hpy, hc, h⟩
    refine ⟨px, py, hpx, hpy, hc, ?_⟩
    rcases h with h | h | h | ⟨h, _⟩
    · exact Or.inl h
    · exact Or.inr (Or.inl h)
    · exact Or.inr (Or.inr (by omega))
    · exact Or.inr (Or.inr h)
  · rintro ⟨px, py, hpx, hpy, hc, h⟩
    refine ⟨px, py, hpx, hpy, hc, ?_⟩
    by_cases h1 : x + (px : Int) < 0
    · exact Or.inl h1
    by_cases h2 : x + (px : Int) ≥ 16
    · exact Or.inr (Or.inl h2)
    by_cases h3 : y + (py : Int) ≥ 8
    · exact Or.inr (Or.inr (Or.inl h3))
    have h4 : y + (py : Int) ≥ 0 := by omega
    refine Or.inr (Or.inr (Or.inr ⟨h4, ⟨(y + py).toNat, by omega⟩, ⟨(x + px).toNat, by omega⟩,
      by simp only []; omega, by simp only []; omega, ?_⟩))
    rcases lock_shape_cells_eq grid x y shape rotation ⟨(y + py).toNat, by omega⟩
        ⟨(x + px).toNat, by omega⟩ with ⟨_, hv⟩ | ⟨hn, _⟩
    · rw [hv]; decide
    · exact absurd ⟨px, py, hpx, hpy, hc, by simp only []; omega, by simp only []; omega⟩ hn

/-- C5 (as the code has it): for an `int` anchor (x,y) whose y is at most 2147483644 (so
that the 32-bit sum y+py does not overflow), after lock_shape the same piece at the same
anchor collides if and only if one of its occupied cells lies in a row gy ≥ 0 or in a
column outside 0..15; so it collides whenever y ≥ 0 and the pattern has an occupied
cell. -/
theorem lock_then_collides (grid : Grid) (x y : Int) (shape : Fin 10) (rotation : Fin 4)
    (hx1 : -2147483648 ≤ x) (hx2 : x ≤ 2147483647)
    (hy1 : -2147483648 ≤ y) (hy2 : y ≤ 2147483644) :
    (check_collision_shape (lock_shape grid x y shape rotation) x y shape rotation = true ↔
      ∃ px py : Nat, px < 4 ∧ py < 4 ∧ tetromino_cell shape rotation px py = true ∧
        (x + px < 0 ∨ x + px ≥ 16 ∨ y + py ≥ 0)) ∧
    (0 ≤ y → (∃ px py : Nat, px < 4 ∧ py < 4 ∧ tetromino_cell shape rotation px py = true) →
      check_collision_shape (lock_shape grid x y shape rotation) x y shape rotation = true) := by
  refine ⟨lock_then_collision_iff grid x y shape rotation hx1 hx2 hy1 hy2, ?_⟩
  rintro hy ⟨px, py, hpx, hpy, hc⟩
  exact (lock_then_collision_iff grid x y shape rotation hx1 hx2 hy1 hy2).2
    ⟨px, py, hpx, hpy, hc, Or.inr (Or.inr (by omega))⟩

/-- C5 fails as stated: the square locked at anchor (6,-4) on the empty grid lies wholly
above the grid, nothing is written, and the collision test at (6,-4) returns false. -/
theorem lock_then_collides_counterexample :
    check_collision_shape (lock_shape Grid.empty 6 (-4) 3 0) 6 (-4) 3 0 = false := by
  decide

/-- Beyond the range of C5: at the anchor (6, 2147483647) the I piece has its only
occupied row at a sum that wraps to a negative row; lock_shape writes nothing and the
collision test returns false although y ≥ 0. -/
theorem lock_overflow_no_collision :
    (∀ (r : Fin 8) (c : Fin 16), (lock_shape Grid.empty 6 2147483647 0 0).cells r c = 0) ∧
    check_collision_shape (lock_shape Grid.empty 6 2147483647 0 0) 6 2147483647 0 0 = false := by
  decide

/-- Witness for C5: the square at anchor (6,0) on the empty grid. -/
theorem lock_then_collides_witness :
    (-2147483648 : Int) ≤ 6 ∧ (6 : Int) ≤ 2147483647 ∧ (-2147483648 : Int) ≤ 0 ∧
    (0 : Int) ≤ 2147483644 ∧
    (0 : Int) ≤ 0 ∧ (∃ px py : Nat, px < 4 ∧ py < 4 ∧ tetromino_cell 3 0 px py = true) ∧
      check_collision_shape (lock_shape Grid.empty 6 0 3 0) 6 0 3 0 = true :=
  ⟨by decide, by decide, by decide, by decide, le_refl _,
    ⟨1, 0, by decide, by decide, by decide⟩,
    (lock_then_collides Grid.empty 6 0 3 0 (by decide) (by decide) (by decide) (by decide)).2
      (le_refl _) ⟨1, 0, by decide, by decide, by decide⟩⟩

/-! ### spawn_piece -/

/-- Every rotation-0 pattern of the table has an occupied cell in its first two rows. -/
theorem rotation0_top_rows :
    ∀ shape : Fin 10, ∃ px : Fin 4, ∃ py : Fin 2, tetromino_cell shape 0 px.val py.val = true := by
  decide

theorem spawn_piece_grid (r : Nat) (s : State) : (spawn_piece r s).grid = s.grid := by
  unfold spawn_piece
  simp only []
  split <;> rfl

/-- C7: when rows 0 and 1 are occupied in columns 6..9, spawn_piece sets game_over for
every value of rand() and leaves the grid as it was. -/
theorem spawn_piece_blocked (s : State) (r : Nat)
    (h : ∀ (gy : Fin 8) (gx : Fin 16), gy.val < 2 → 6 ≤ gx.val → gx.val ≤ 9 →
      s.grid.cells gy gx ≠ 0) :
    (spawn_piece r s).game_over = true ∧ (spawn_piece r s).grid = s.grid := by
  refine ⟨?_, spawn_piece_grid r s⟩
  obtain ⟨px, py, hc⟩ := rotation0_top_rows ⟨r % 10, Nat.mod_lt _ (by decide)⟩
  have hcol : check_collision_shape s.grid ((GRID_WIDTH / 2 - 2 : Nat) : Int) 0
      ⟨r % 10, Nat.mod_lt _ (by decide)⟩ 0 = true := by
    rw [collision_true_iff _ _ _ _ _ (by decide) (by decide) (by decide) (by decide)]
    refine ⟨px.val, py.val, px.isLt, by have := py.isLt; omega, hc, ?_⟩
    have hx := px.isLt
    have hy := py.isLt
    refine Or.inr (Or.inr (Or.inr ⟨by omega, ⟨py.val, by omega⟩, ⟨6 + px.val, by omega⟩, ?_, ?_, ?_⟩))
    · simp
    · simp [GRID_WIDTH]
    · exact h _ _ hy (by simp) (by simp only []; omega)
  unfold spawn_piece
  simp only [hcol, if_true]

/-- Witness for C7: the grid with every cell occupied, and rand() = 0. -/
theorem spawn_piece_blocked_witness :
    (∀ (gy : Fin 8) (gx : Fin 16), gy.val < 2 → 6 ≤ gx.val → gx.val ≤ 9 →
      blocked_state.grid.cells gy gx ≠ 0) ∧
    (spawn_piece 0 blocked_state).game_over = true ∧
    (spawn_piece 0 blocked_state).grid = blocked_state.grid :=
  ⟨fun _ _ _ _ _ => (by decide : (1 : Cell) ≠ 0),
   spawn_piece_blocked blocked_state 0 (fun _ _ _ _ _ => (by decide : (1 : Cell) ≠ 0))⟩

/-! ### clear_lines -/

theorem full_line_iff (row : Row) : full_line row = true ↔ ∀ c : Fin 16, row c ≠ 0 := by
  unfold full_line
  simp [List.all_eq_true]

/-- Writing along one row: the cells of the columns in the list take the given values. -/
theorem foldl_set_row (dst : Fin 8) (v : Fin 16 → Cell) :
    ∀ (l : List (Fin 16)) (g : Grid) (r : Fin 8) (c : Fin 16),
      (l.foldl (fun g col => g.set dst col (v col)) g).cells r c =
        if r = dst ∧ c ∈ l then v c else g.cells r c := by
  intro l
  induction l with
  | nil => intro g r c; simp
  | cons a l ih =>
    intro g r c
    rw [List.foldl_cons, ih, Grid.cells_set]
    by_cases h1 : r = dst
    · by_cases h2 : c ∈ l
      · simp [h1, h2]
      · by_cases h3 : c = a
        · simp [h1, h3]
        · simp [h1, h2, h3]
    · simp [h1]

/-- Reads of a row other than the one written are not disturbed by the writes. -/
theorem foldl_copy_eq (dst src : Fin 8) (hne : src ≠ dst) :
    ∀ (l : List (Fin 16)) (g : Grid),
      l.foldl (fun g col => g.set dst col (g.cells src col)) g =
        l.foldl (fun g1 col => g1.set dst col (g.cells src col)) g := by
  intro l
  induction l with
  | nil => intro g; rfl
  | cons a l ih =>
    intro g
    rw [List.foldl_cons, List.foldl_cons, ih]
    have e : ∀ col, (g.set dst a (g.cells src a)).cells src col = g.cells src col := by
      intro col
      rw [Grid.cells_set, if_neg]
      exact fun h => hne h.1
    simp only [e]

theorem copy_row_cells (g : Grid) (dst src : Fin 8) (hne : src ≠ dst) (r : Fin 8) :
    (copy_row g dst src).cells r = if r = dst then g.cells src else g.cells r := by
  funext c
  unfold copy_row
  rw [foldl_copy_eq dst src hne _ g, foldl_set_row dst (g.cells src)]
  by_cases h : r = dst
  · simp [h, List.mem_finRange]
  · simp [h]

theorem clear_top_row_cells (g : Grid) (r : Fin 8) :
    (clear_top_row g).cells r = if r = 0 then (fun _ => 0) else g.cells r := by
  funext c
  unfold clear_top_row
  rw [foldl_set_row 0 (fun _ => 0)]
  by_cases h : r = 0
  · simp [h, List.mem_finRange]
  · simp [h]

theorem shift_rows_down_cells :
    ∀ (y : Nat) (h : y < 8) (g : Grid) (r : Fin 8),
      (shift_rows_down y h g).cells r =
        if h1 : 1 ≤ r.val ∧ r.val ≤ y then g.cells ⟨r.val - 1, by omega⟩ else g.cells r := by
  intro y
  induction y with
  | zero =>
    intro h g r
    unfold shift_rows_down
    rw [dif_neg]
    omega
  | succ n ih =>
    intro h g r
    unfold shift_rows_down
    rw [ih]
    have hne : (⟨n, by omega⟩ : Fin 8) ≠ ⟨n + 1, h⟩ := by
      intro e; have := congrArg Fin.val e; simp at this
    by_cases h1 : 1 ≤ r.val ∧ r.val ≤ n
    · rw [dif_pos h1, dif_pos ⟨h1.1, by omega⟩, copy_row_cells _ _ _ hne, if_neg]
      intro e; have := congrArg Fin.val e; simp at this; omega
    · rw [dif_neg h1, copy_row_cells _ _ _ hne]
      by_cases h2 : r = ⟨n + 1, h⟩
      · subst h2
        rw [if_pos rfl, dif_pos ⟨by simp, by simp⟩]
        rfl
      · rw [if_neg h2, dif_neg]
        intro h3
        apply h2
        ext
        simp only []
        omega

/-- The grid after the full row `y` has been removed: row 0 is zeroed, rows 1..y hold the
former rows 0..y-1, rows below `y` are as before. -/
theorem remove_row_cells (y : Nat) (h : y < 8) (g : Grid) (r : Fin 8) :
    (clear_top_row (shift_rows_down y h g)).cells r =
      if h0 : r.val = 0 then (fun _ => 0)
      else if r.val ≤ y then g.cells ⟨r.val - 1, by omega⟩ else g.cells r := by
  rw [clear_top_row_cells, shift_rows_down_cells]
  by_cases h0 : r = 0
  · subst h0; simp
  · have h0v : r.val ≠ 0 := fun e => h0 (Fin.ext e)
    rw [if_neg h0, dif_neg h0v]
    by_cases h1 : r.val ≤ y
    · rw [dif_pos ⟨by omega, h1⟩, if_pos h1]
    · rw [dif_neg (fun hh => h1 hh.2), if_neg h1]
theorem Grid.rows_length (g : Grid) : g.rows.length = 8 := by
  unfold Grid.rows; simp

theorem Grid.rows_getElem? (g : Grid) (i : Nat) :
    g.rows[i]? = if h : i < 8 then some (g.cells ⟨i, h⟩) else none := by
  unfold Grid.rows
  rw [List.getElem?_ofFn]
  rfl

theorem Grid.cells_eq_of_rows (g : Grid) (l : List Row) (h : g.rows = l) (i : Nat)
    (hi : i < 8) : l[i]? = some (g.cells ⟨i, hi⟩) := by
  rw [← h, Grid.rows_getElem?, dif_pos hi]

theorem full_line_eq (row : Row) : full_line row = row.is_full := by
  unfold Row.is_full
  by_cases h : ∀ c : Fin 16, row c ≠ 0
  · rw [decide_eq_true h]; exact (full_line_iff row).2 h
  · rw [decide_eq_false h]
    cases hf : full_line row
    · rfl
    · exact absurd ((full_line_iff row).1 hf) h

/-- Removing the row that follows the prefix `A`: in terms of the list of rows, that
row disappears and an empty row is put on top. -/
theorem rows_remove_row (g : Grid) (A B : List Row) (a : Row) (hy : A.length < 8)
    (hg : g.rows = A ++ a :: B) :
    (clear_top_row (shift_rows_down A.length hy g)).rows = Row.zero :: (A ++ B) := by
  have hlen : A.length + (B.length + 1) = 8 := by
    have := g.rows_length
    rw [hg] at this
    simpa using this
  apply List.ext_getElem?
  intro i
  rw [Grid.rows_getElem?]
  by_cases hi : i < 8
  · rw [dif_pos hi, remove_row_cells]
    cases i with
    | zero => simp only [dif_pos, List.getElem?_cons_zero]; rfl
    | succ j =>
      rw [dif_neg (by simp), List.getElem?_cons_succ]
      by_cases hj : j + 1 ≤ A.length
      · rw [if_pos hj]
        have e := Grid.cells_eq_of_rows g _ hg j (by omega)
        rw [List.getElem?_append_left (by omega)] at e
        rw [List.getElem?_append_left (by omega), e]
        rfl
      · rw [if_neg hj]
        have e := Grid.cells_eq_of_rows g _ hg (j + 1) hi
        rw [List.getElem?_append_right (by omega)] at e
        rw [List.getElem?_append_right (by omega), ← e]
        have e2 : j + 1 - A.length = (j - A.length) + 1 := by omega
        rw [e2, List.getElem?_cons_succ]
  · rw [dif_neg hi]
    symm
    apply List.getElem?_eq_none
    simp only [List.length_cons, List.length_append]
    omega
theorem clear_lines_loop_neg (fuel : Nat) (y : Int) (hy : y < 0) (g : Grid) (lc : Bool) :
    clear_lines_loop fuel y g lc = .ok (g, lc) := by
  unfold clear_lines_loop
  rw [if_neg (by omega)]

theorem clear_lines_loop_succ (fuel y : Nat) (hy : y < 8) (g : Grid) (lc : Bool) :
    clear_lines_loop (fuel + 1) (y : Int) g lc =
      if full_line (g.cells ⟨y, hy⟩) then
        clear_lines_loop fuel (y : Int) (clear_top_row (shift_rows_down y hy g)) true
      else clear_lines_loop fuel ((y : Int) - 1) g lc := by
  rw [clear_lines_loop]
  have h0 : (y : Int) ≥ 0 := by omega
  have h8 : (y : Int) < 8 := by omega
  simp only [h0, h8, if_true, dite_true, Int.toNat_ofNat, add_sub_cancel_right]

theorem clear_lines_loop_zero (y : Nat) (g : Grid) (lc : Bool) :
    clear_lines_loop 0 (y : Int) g lc = .error Fault.fuel := by
  rw [clear_lines_loop]
  have h0 : (y : Int) ≥ 0 := by omega
  simp only [h0, if_true]

/-- The scan entered at the last row of the prefix `A`, with only non-full rows below:
it ends with the full rows of `A` replaced by as many empty rows on top. -/
theorem clear_lines_loop_spec :
    ∀ (fuel : Nat) (g : Grid) (lc : Bool) (A B : List Row),
      g.rows = A ++ B →
      A.length + (A.filter Row.is_full).length ≤ fuel →
      ∃ g1, clear_lines_loop fuel ((A.length : Int) - 1) g lc =
            .ok (g1, lc || decide (0 < (A.filter Row.is_full).length)) ∧
          g1.rows = List.replicate (A.filter Row.is_full).length Row.zero ++
            (A.filter (fun r => !r.is_full) ++ B) := by
  intro fuel
  induction fuel with
  | zero =>
    intro g lc A B hg hf
    have hA : A = [] := List.eq_nil_of_length_eq_zero (by omega)
    subst hA
    exact ⟨g, by rw [clear_lines_loop_neg _ _ (by simp)]; simp, by simpa using hg⟩
  | succ n ih =>
    intro g lc A B hg hf
    rcases List.eq_nil_or_concat A with hA | ⟨A1, a, hA⟩
    · subst hA
      exact ⟨g, by rw [clear_lines_loop_neg _ _ (by simp)]; simp, by simpa using hg⟩
    · rw [List.concat_eq_append] at hA
      subst hA
      have hg1 : g.rows = A1 ++ a :: B := by rw [hg]; simp
      have hlen : A1.length + (B.length + 1) = 8 := by
        have := g.rows_length
        rw [hg1] at this
        simpa using this
      have hy : A1.length < 8 := by omega
      have ha : g.cells ⟨A1.length, hy⟩ = a := by
        have e := Grid.cells_eq_of_rows g _ hg1 A1.length hy
        rw [List.getElem?_append_right (le_refl _)] at e
        simpa using e.symm
      have ey : (((A1 ++ [a]).length : Nat) : Int) - 1 = (A1.length : Int) := by
        simp
      rw [ey, clear_lines_loop_succ n A1.length hy, ha, full_line_eq]
      cases hfull : a.is_full
      · -- the row is not full: the scan moves up
        simp only [Bool.false_eq_true, if_false]
        have hf1 : A1.length + (A1.filter Row.is_full).length ≤ n := by
          simp [List.filter_append, hfull] at hf
          omega
        obtain ⟨g1, h1, h2⟩ := ih g lc A1 (a :: B) hg1 hf1
        refine ⟨g1, ?_, ?_⟩
        · rw [h1]; simp [List.filter_append, hfull]
        · rw [h2]; simp [List.filter_append, hfull]
      · -- the row is full: it is removed and the same index is scanned again
        simp only [if_true]
        have hrows := rows_remove_row g A1 B a hy hg1
        have hrows1 : (clear_top_row (shift_rows_down A1.length hy g)).rows =
            (Row.zero :: A1) ++ B := by rw [hrows]; rfl
        have hz : Row.zero.is_full = false := by decide
        have hf1 : (Row.zero :: A1).length + ((Row.zero :: A1).filter Row.is_full).length ≤ n := by
          simp [List.filter_append, hfull, hz] at hf ⊢
          omega
        obtain ⟨g1, h1, h2⟩ := ih _ true (Row.zero :: A1) B hrows1 hf1
        have ey1 : (((Row.zero :: A1).length : Nat) : Int) - 1 = (A1.length : Int) := by
          simp
        rw [ey1] at h1
        refine ⟨g1, ?_, ?_⟩
        · rw [h1]; simp [List.filter_append, hfull]
        · rw [h2]
          simp only [List.filter_append, List.filter_cons, hfull, hz, List.filter_nil,
            Bool.not_false, Bool.not_true, if_true, Bool.false_eq_true, if_false,
            List.length_append, List.length_cons, List.length_nil, List.append_nil]
          rw [List.replicate_succ', List.append_assoc]
          rfl
theorem Grid.rows_injective (g1 g2 : Grid) (h : g1.rows = g2.rows) : g1 = g2 := by
  unfold Grid.rows at h
  exact Grid.ext (List.ofFn_injective h)

theorem Grid.rows_eq (g : Grid) :
    g.rows = [g.cells 0, g.cells 1, g.cells 2, g.cells 3, g.cells 4, g.cells 5, g.cells 6,
      g.cells 7] := by
  unfold Grid.rows
  simp only [List.ofFn_succ, List.ofFn_zero]
  rfl

theorem Row.is_full_iff (row : Row) : row.is_full = true ↔ ∀ c : Fin 16, row c ≠ 0 := by
  unfold Row.is_full; simp

theorem Row.is_full_eq_false_iff (row : Row) : row.is_full = false ↔ ∃ c : Fin 16, row c = 0 := by
  unfold Row.is_full; simp

/-- What clear_lines returns, given fuel for 8 + (number of full rows) passes of the scan. -/
theorem clear_lines_spec (g : Grid) (led : List Nat) (fuel : Nat)
    (hfuel : 8 + g.full_rows ≤ fuel) :
    ∃ g1, clear_lines fuel g led =
        .ok (g1, if 0 < g.full_rows then led ++ [100] else led) ∧
      g1.rows = List.replicate g.full_rows Row.zero ++
        g.rows.filter (fun r => !r.is_full) := by
  have h := clear_lines_loop_spec fuel g false g.rows [] (by simp)
    (by rw [g.rows_length]; exact hfuel)
  obtain ⟨g1, h1, h2⟩ := h
  refine ⟨g1, ?_, ?_⟩
  · unfold clear_lines
    have e : ((GRID_HEIGHT - 1 : Nat) : Int) = (g.rows.length : Int) - 1 := by
      rw [g.rows_length]; rfl
    rw [e, h1]
    unfold Grid.full_rows led_flash
    simp
  · rw [h2]; simp [Grid.full_rows]
theorem grid_2_3_full_rows : grid_2_3.full_rows = 2 := by decide

theorem grid_2_3_5_full_rows : grid_2_3_5.full_rows = 3 := by decide

/-- C2: with k the number of full rows, clear_lines (given fuel for 8 + k passes of its
scan) returns a grid whose rows are k empty rows followed by the non-full rows of the
original in their original order, and it pulses the LED for 100 ms exactly when k > 0. -/
theorem clear_lines_compacts (g : Grid) (led : List Nat) (fuel : Nat)
    (hfuel : 8 + g.full_rows ≤ fuel) :
    ∃ g1, clear_lines fuel g led =
        .ok (g1, if 0 < g.full_rows then led ++ [100] else led) ∧
      g1.rows = List.replicate g.full_rows Row.zero ++
        g.rows.filter (fun r => !r.is_full) :=
  clear_lines_spec g led fuel hfuel

/-- Witness for C2: rows 2 and 3 full, fuel 10. -/
theorem clear_lines_compacts_witness :
    8 + grid_2_3.full_rows ≤ 10 ∧
    ∃ g1, clear_lines 10 grid_2_3 [] =
        .ok (g1, if 0 < grid_2_3.full_rows then [] ++ [100] else []) ∧
      g1.rows = List.replicate grid_2_3.full_rows Row.zero ++
        grid_2_3.rows.filter (fun r => !r.is_full) :=
  ⟨by rw [grid_2_3_full_rows], clear_lines_compacts grid_2_3 [] 10 (by rw [grid_2_3_full_rows])⟩
theorem grid_2_3_5_kept :
    grid_2_3_5.rows.filter (fun r => !r.is_full) =
      [grid_2_3_5.cells 0, grid_2_3_5.cells 1, grid_2_3_5.cells 4, grid_2_3_5.cells 6,
        grid_2_3_5.cells 7] := by
  decide

/-- C3 (as the code has it): when rows 2 and 3 are full and no other row is full,
clear_lines returns the grid with rows 0 and 1 empty, the former rows 0 and 1 in rows 2
and 3, and rows 4..7 as they were; the LED is pulsed for 100 ms. -/
theorem clear_lines_rows_2_3 (g : Grid) (led : List Nat) (fuel : Nat) (hfuel : 10 ≤ fuel)
    (h2 : ∀ c : Fin 16, g.cells 2 c ≠ 0) (h3 : ∀ c : Fin 16, g.cells 3 c ≠ 0)
    (hother : ∀ r : Fin 8, r ≠ 2 → r ≠ 3 → ∃ c : Fin 16, g.cells r c = 0) :
    ∃ g1, clear_lines fuel g led = .ok (g1, led ++ [100]) ∧
      g1.cells 0 = Row.zero ∧ g1.cells 1 = Row.zero ∧
      g1.cells 2 = g.cells 0 ∧ g1.cells 3 = g.cells 1 ∧
      g1.cells 4 = g.cells 4 ∧ g1.cells 5 = g.cells 5 ∧
      g1.cells 6 = g.cells 6 ∧ g1.cells 7 = g.cells 7 := by
  have f0 := (Row.is_full_eq_false_iff _).2 (hother 0 (by decide) (by decide))
  have f1 := (Row.is_full_eq_false_iff _).2 (hother 1 (by decide) (by decide))
  have f2 := (Row.is_full_iff _).2 h2
  have f3 := (Row.is_full_iff _).2 h3
  have f4 := (Row.is_full_eq_false_iff _).2 (hother 4 (by decide) (by decide))
  have f5 := (Row.is_full_eq_false_iff _).2 (hother 5 (by decide) (by decide))
  have f6 := (Row.is_full_eq_false_iff _).2 (hother 6 (by decide) (by decide))
  have f7 := (Row.is_full_eq_false_iff _).2 (hother 7 (by decide) (by decide))
  have hk : g.full_rows = 2 := by
    unfold Grid.full_rows
    rw [g.rows_eq]
    simp [List.filter_cons, f0, f1, f2, f3, f4, f5, f6, f7]
  obtain ⟨g1, h1, hr⟩ := clear_lines_spec g led fuel (by rw [hk]; exact hfuel)
  refine ⟨g1, by rw [h1, hk]; rfl, ?_⟩
  rw [hk, g.rows_eq, g1.rows_eq] at hr
  simp [List.filter_cons, f0, f1, f2, f3, f4, f5, f6, f7, List.replicate_succ] at hr
  exact hr

/-- Witness for C3: rows 2 and 3 full, one block in each of rows 1 and 6. -/
theorem clear_lines_rows_2_3_witness :
    (10 ≤ 10) ∧ (∀ c : Fin 16, grid_2_3.cells 2 c ≠ 0) ∧
    (∀ c : Fin 16, grid_2_3.cells 3 c ≠ 0) ∧
    (∀ r : Fin 8, r ≠ 2 → r ≠ 3 → ∃ c : Fin 16, grid_2_3.cells r c = 0) ∧
    ∃ g1, clear_lines 10 grid_2_3 [] = .ok (g1, [] ++ [100]) ∧
      g1.cells 0 = Row.zero ∧ g1.cells 1 = Row.zero ∧
      g1.cells 2 = grid_2_3.cells 0 ∧ g1.cells 3 = grid_2_3.cells 1 ∧
      g1.cells 4 = grid_2_3.cells 4 ∧ g1.cells 5 = grid_2_3.cells 5 ∧
      g1.cells 6 = grid_2_3.cells 6 ∧ g1.cells 7 = grid_2_3.cells 7 :=
  ⟨le_refl _, by decide, by decide, by decide,
    clear_lines_rows_2_3 grid_2_3 [] 10 (le_refl _) (by decide) (by decide) (by decide)⟩

/-- C3 fails as stated: with rows 2 and 3 full and row 5 (one of the "arbitrary" rows)
full as well, row 5 of the result is not the original row 5. -/
theorem clear_lines_rows_2_3_counterexample :
    (∀ c : Fin 16, grid_2_3_5.cells 2 c ≠ 0) ∧ (∀ c : Fin 16, grid_2_3_5.cells 3 c ≠ 0) ∧
    ∃ g1 led1, clear_lines 16 grid_2_3_5 [] = .ok (g1, led1) ∧
      g1.cells 5 ≠ grid_2_3_5.cells 5 := by
  refine ⟨by decide, by decide, ?_⟩
  obtain ⟨g1, h1, hr⟩ := clear_lines_spec grid_2_3_5 [] 16 (by rw [grid_2_3_5_full_rows]; decide)
  refine ⟨g1, _, h1, ?_⟩
  rw [grid_2_3_5_full_rows, grid_2_3_5_kept, g1.rows_eq] at hr
  simp [List.replicate_succ] at hr
  rw [hr.2.2.2.2.2.1]
  intro e
  exact absurd (congrFun e 0) (by decide)

theorem clear_lines_unchanged (g : Grid) (led : List Nat) (fuel : Nat) (hfuel : 8 ≤ fuel)
    (h : ∀ r : Fin 8, ∃ c : Fin 16, g.cells r c = 0) :
    clear_lines fuel g led = .ok (g, led) := by
  have hnf : ∀ row ∈ g.rows, row.is_full = false := by
    intro row hrow
    unfold Grid.rows at hrow
    rw [List.mem_ofFn] at hrow
    obtain ⟨r, rfl⟩ := hrow
    exact (Row.is_full_eq_false_iff _).2 (h r)
  have hk : g.full_rows = 0 := by
    unfold Grid.full_rows
    rw [List.length_eq_zero, List.filter_eq_nil_iff]
    intro row hrow
    rw [hnf row hrow]
    decide
  obtain ⟨g1, h1, hr⟩ := clear_lines_spec g led fuel (by rw [hk]; exact hfuel)
  have hg : g1 = g := by
    apply Grid.rows_injective
    rw [hr, hk]
    simp only [List.replicate_zero, List.nil_append]
    rw [List.filter_eq_self]
    intro row hrow
    rw [hnf row hrow]
    rfl
  rw [h1, hk, hg]; rfl


/-- C4: when no row is full, clear_lines (given fuel for the 8 passes of its scan) returns
the grid unchanged and does not pulse the LED; running it again on its result gives the
same result. -/
theorem clear_lines_no_full_row (g : Grid) (led : List Nat) (fuel : Nat) (hfuel : 8 ≤ fuel)
    (h : ∀ r : Fin 8, ∃ c : Fin 16, g.cells r c = 0) :
    clear_lines fuel g led = .ok (g, led) ∧
    (clear_lines fuel g led >>= fun p => clear_lines fuel p.1 p.2) =
      clear_lines fuel g led := by
  have e := clear_lines_unchanged g led fuel hfuel h
  refine ⟨e, ?_⟩
  rw [e]
  exact e

/-- Witness for C4: the empty grid, fuel 8. -/
theorem clear_lines_no_full_row_witness :
    (8 ≤ 8) ∧ (∀ r : Fin 8, ∃ c : Fin 16, Grid.empty.cells r c = 0) ∧
    clear_lines 8 Grid.empty [] = .ok (Grid.empty, []) ∧
    (clear_lines 8 Grid.empty [] >>= fun p => clear_lines 8 p.1 p.2) =
      clear_lines 8 Grid.empty [] :=
  ⟨le_refl _, fun _ => ⟨0, rfl⟩,
    clear_lines_no_full_row Grid.empty [] 8 (le_refl _) (fun _ => ⟨0, rfl⟩)⟩

/-! ### ssd1306_draw_pixel -/

/-- A byte has no bit at position 8 or above. -/
theorem testBit_byte_high (n b : Nat) (hn : n < 256) (hb : 8 ≤ b) : n.testBit b = false := by
  apply Nat.testBit_lt_two_pow
  calc n < 2 ^ 8 := hn
    _ ≤ 2 ^ b := Nat.pow_le_pow_right (by decide) hb

/-- The 8-bit mask `1 << k` for a bit number k < 8. -/
theorem bit_mask_eq (k : Nat) (hk : k < 8) : (1 <<< k) % 256 = 2 ^ k := by
  rw [Nat.one_shiftLeft]
  apply Nat.mod_eq_of_lt
  calc 2 ^ k < 2 ^ 8 := Nat.pow_lt_pow_right (by decide) hk
    _ = 256 := by decide

/-- Bits of the byte after `|= bit_mask` or `&= ~bit_mask`. -/
theorem testBit_update (old k b : Nat) (hold : old < 256) (hk : k < 8) (color : Bool) :
    (U8.ofNat (if color then old ||| (1 <<< k) % 256
                else old &&& (255 ^^^ (1 <<< k) % 256))).val.testBit b =
      if b = k then color else old.testBit b := by
  unfold U8.ofNat
  simp only []
  rw [bit_mask_eq k hk]
  have h256 : (256 : Nat) = 2 ^ 8 := by decide
  have h255 : (255 : Nat) = 2 ^ 8 - 1 := by decide
  rw [h256, Nat.testBit_mod_two_pow]
  by_cases hb8 : b < 8
  · cases color
    · simp only [Bool.false_eq_true, if_false, Nat.testBit_and, Nat.testBit_xor, h255,
        Nat.testBit_two_pow_sub_one, Nat.testBit_two_pow, hb8, decide_True, Bool.true_and]
      by_cases hbk : b = k
      · subst hbk; simp
      · have : ¬ k = b := fun e => hbk e.symm
        simp [hbk, this]
    · simp only [if_true, Nat.testBit_or, Nat.testBit_two_pow, hb8, decide_True,
        Bool.true_and]
      by_cases hbk : b = k
      · subst hbk; simp
      · have : ¬ k = b := fun e => hbk e.symm
        simp [hbk, this]
  · have hbk : b ≠ k := by omega
    rw [if_neg hbk, testBit_byte_high old b hold (by omega)]
    simp [hb8]

theorem draw_pixel_outside (dev : ssd1306_t) (x y : U8) (color : Bool)
    (h : x.val ≥ dev.width.val ∨ y.val ≥ dev.height.val) :
    ssd1306_draw_pixel dev x y color = .ok dev := by
  unfold ssd1306_draw_pixel
  rw [if_pos h]

theorem draw_pixel_inside (dev : ssd1306_t) (x y : U8) (color : Bool)
    (hx : x.val < dev.width.val) (hy : y.val < dev.height.val)
    (hi : (y.val / 8) * dev.width.val + x.val < 1024) :
    ∃ dev1, ssd1306_draw_pixel dev x y color = .ok dev1 ∧
      dev1.width = dev.width ∧ dev1.height = dev.height ∧ dev1.address = dev.address ∧
      (∀ (i : Fin 1024) (b : Nat),
        (dev1.buffer i).val.testBit b =
          if i.val = (y.val / 8) * dev.width.val + x.val ∧ b = y.val % 8 then color
          else (dev.buffer i).val.testBit b) ∧
      (∀ i : Fin 1024, i.val ≠ (y.val / 8) * dev.width.val + x.val →
        dev1.buffer i = dev.buffer i) := by
  unfold ssd1306_draw_pixel
  have h1 : ¬ (x.val ≥ dev.width.val ∨ y.val ≥ dev.height.val) := by omega
  have h2 : ((y.val / 8) * dev.width.val + x.val) % 65536 =
      (y.val / 8) * dev.width.val + x.val := Nat.mod_eq_of_lt (by omega)
  rw [if_neg h1]
  simp only [h2, dif_pos hi]
  refine ⟨_, rfl, rfl, rfl, rfl, ?_, ?_⟩
  · intro i b
    simp only []
    by_cases hidx : i = ⟨(y.val / 8) * dev.width.val + x.val, hi⟩
    · rw [if_pos hidx, testBit_update _ _ _ (dev.buffer _).isLt (Nat.mod_lt _ (by decide))]
      subst hidx
      by_cases hb : b = y.val % 8
      · simp [hb]
      · simp [hb]
    · rw [if_neg hidx, if_neg]
      intro h
      exact hidx (Fin.ext h.1)
  · intro i hne
    simp only []
    rw [if_neg]
    intro h
    exact hne (congrArg Fin.val h)

/-- C10 (as the code has it): outside the surface ssd1306_draw_pixel changes nothing; inside
it, when the byte index (y/8)*W + x is below 1024 (the size of the buffer), it sets or clears
exactly bit y mod 8 of that byte and leaves all other bits of the buffer, and the geometry,
as they were. -/
theorem draw_pixel_spec (dev : ssd1306_t) (x y : U8) (color : Bool) :
    ((x.val ≥ dev.width.val ∨ y.val ≥ dev.height.val) →
      ssd1306_draw_pixel dev x y color = .ok dev) ∧
    (x.val < dev.width.val → y.val < dev.height.val →
      (y.val / 8) * dev.width.val + x.val < 1024 →
      ∃ dev1, ssd1306_draw_pixel dev x y color = .ok dev1 ∧
        dev1.width = dev.width ∧ dev1.height = dev.height ∧ dev1.address = dev.address ∧
        (∀ (i : Fin 1024) (b : Nat),
          (dev1.buffer i).val.testBit b =
            if i.val = (y.val / 8) * dev.width.val + x.val ∧ b = y.val % 8 then color
            else (dev.buffer i).val.testBit b) ∧
        (∀ i : Fin 1024, i.val ≠ (y.val / 8) * dev.width.val + x.val →
          dev1.buffer i = dev.buffer i)) :=
  ⟨draw_pixel_outside dev x y color, draw_pixel_inside dev x y color⟩

/-- Witness for C10: on the 128x64 panel, pixel (200,10) is outside and pixel (5,10) is
inside, at byte 133, bit 2. -/
theorem draw_pixel_spec_witness :
    ((200 : U8).val ≥ panel_128x64.width.val ∨ (10 : U8).val ≥ panel_128x64.height.val) ∧
    ssd1306_draw_pixel panel_128x64 200 10 true = .ok panel_128x64 ∧
    (5 : U8).val < panel_128x64.width.val ∧ (10 : U8).val < panel_128x64.height.val ∧
    ((10 : U8).val / 8) * panel_128x64.width.val + (5 : U8).val < 1024 ∧
    ∃ dev1, ssd1306_draw_pixel panel_128x64 5 10 true = .ok dev1 ∧
      dev1.width = panel_128x64.width ∧ dev1.height = panel_128x64.height ∧
      dev1.address = panel_128x64.address ∧
      (∀ (i : Fin 1024) (b : Nat),
        (dev1.buffer i).val.testBit b =
          if i.val = ((10 : U8).val / 8) * panel_128x64.width.val + (5 : U8).val ∧
              b = (10 : U8).val % 8 then true
          else (panel_128x64.buffer i).val.testBit b) ∧
      (∀ i : Fin 1024,
        i.val ≠ ((10 : U8).val / 8) * panel_128x64.width.val + (5 : U8).val →
        dev1.buffer i = panel_128x64.buffer i) :=
  ⟨Or.inl (by decide),
    (draw_pixel_spec panel_128x64 200 10 true).1 (Or.inl (by decide)),
    by decide, by decide, by decide,
    (draw_pixel_spec panel_128x64 5 10 true).2 (by decide) (by decide) (by decide)⟩

/-- C10 fails as stated: on a surface of width 255 and height 255 the pixel (0,40) is inside
the surface, but its byte index 5*255 = 1275 is outside the 1024-byte buffer, so no byte of
the buffer receives the bit. -/
theorem draw_pixel_counterexample :
    (0 : U8).val < panel_255x255.width.val ∧ (40 : U8).val < panel_255x255.height.val ∧
    ((40 : U8).val / 8) * panel_255x255.width.val + (0 : U8).val = 1275 ∧
    ssd1306_draw_pixel panel_255x255 0 40 true = .error Fault.bounds := by
  refine ⟨by decide, by decide, by decide, ?_⟩
  rfl

/-! ### Input handling -/

theorem input_step_eq (inp : Input) (s : State) (h : inp.debounce_elapsed = true) :
    (input_step inp s).1 =
      { s with block_x := s.block_x + (first_free_offset inp s).1,
               block_y := s.block_y + (first_free_offset inp s).2 } ∧
    (input_step inp s).2 = decide (first_free_offset inp s ≠ (0, 0)) := by
  unfold input_step first_free_offset directions
  rw [if_pos h]
  simp only [List.find?, Int.sub_eq_add_neg, add_zero]
  generalize check_collision_shape s.grid (s.block_x + -1) s.block_y
      s.current_shape s.current_rotation = c1
  generalize check_collision_shape s.grid (s.block_x + 1) s.block_y
      s.current_shape s.current_rotation = c2
  generalize check_collision_shape s.grid s.block_x (s.block_y + 1)
      s.current_shape s.current_rotation = c3
  cases inp.left <;> cases inp.right <;> cases inp.down <;> cases c1 <;> cases c2 <;>
    cases c3 <;> simp

/-! ### Loops that cannot fault on the 128x64 panel -/

/-- A monadic loop whose every step succeeds and keeps the invariant succeeds and keeps
the invariant. -/
theorem foldlM_ok_of_inv {σ α : Type} (I : σ → Prop) (f : σ → α → Except Fault σ) :
    ∀ (l : List α), (∀ s a, a ∈ l → I s → ∃ s1, f s a = .ok s1 ∧ I s1) →
      ∀ s, I s → ∃ s1, l.foldlM f s = .ok s1 ∧ I s1 := by
  intro l
  induction l with
  | nil => intro _ s hs; exact ⟨s, rfl, hs⟩
  | cons a l ih =>
    intro hf s hs
    obtain ⟨s1, h1, hI⟩ := hf s a (List.mem_cons_self _ _) hs
    obtain ⟨s2, h2, hI2⟩ := ih (fun s a ha => hf s a (List.mem_cons_of_mem _ ha)) s1 hI
    refine ⟨s2, ?_, hI2⟩
    rw [List.foldlM_cons, h1]
    exact h2

/-- A monadic map whose every step succeeds returns the mapped list. -/
theorem mapM_ok {α β : Type} (f : α → Except Fault β) (g : α → β) :
    ∀ (l : List α), (∀ a ∈ l, f a = .ok (g a)) → l.mapM f = .ok (l.map g) := by
  intro l
  induction l with
  | nil => intro _; rfl
  | cons a l ih =>
    intro hf
    rw [List.mapM_cons, hf a (List.mem_cons_self _ _),
      ih (fun b hb => hf b (List.mem_cons_of_mem _ hb))]
    rfl

theorem draw_pixel_panel (dev : ssd1306_t) (x y : U8) (color : Bool) (h : panel_ok dev) :
    ∃ dev1, ssd1306_draw_pixel dev x y color = .ok dev1 ∧ panel_ok dev1 := by
  by_cases ho : x.val ≥ dev.width.val ∨ y.val ≥ dev.height.val
  · exact ⟨dev, draw_pixel_outside dev x y color ho, h⟩
  · have hw : dev.width.val = 128 := by rw [h.1]; rfl
    have hh : dev.height.val = 64 := by rw [h.2]; rfl
    obtain ⟨dev1, h1, h2, h3, _⟩ := draw_pixel_inside dev x y color (by omega) (by omega)
      (by rw [hw]; omega)
    exact ⟨dev1, h1, by rw [panel_ok, h2, h3]; exact h⟩

theorem draw_rect_fill_panel (dev : ssd1306_t) (x y w h : U8) (fill : Bool)
    (hp : panel_ok dev) :
    ∃ dev1, ssd1306_draw_rect_fill dev x y w h fill = .ok dev1 ∧ panel_ok dev1 := by
  unfold ssd1306_draw_rect_fill
  apply foldlM_ok_of_inv panel_ok _ _ _ dev hp
  intro d dx _ hd
  apply foldlM_ok_of_inv panel_ok _ _ _ d hd
  intro d1 dy _ hd1
  exact draw_pixel_panel d1 _ _ fill hd1

theorem read_bytes_ok (buffer : Fin 1024 → U8) (start len : Nat) (h : start + len ≤ 1024) :
    read_bytes buffer start len =
      .ok ((List.range len).map fun i =>
        if h : start + i < 1024 then buffer ⟨start + i, h⟩ else 0) := by
  unfold read_bytes
  apply mapM_ok
  intro i hi
  rw [List.mem_range] at hi
  rw [dif_pos (by omega), dif_pos (by omega)]

theorem show_panel (dev : ssd1306_t) (bus : List I2CWrite) (hp : panel_ok dev) :
    ∃ bus1, ssd1306_show dev bus = .ok bus1 := by
  have hw : dev.width.val = 128 := by rw [hp.1]; rfl
  have hh : dev.height.val = 64 := by rw [hp.2]; rfl
  unfold ssd1306_show
  obtain ⟨b, hb, _⟩ := foldlM_ok_of_inv (fun _ => True)
    (fun bus page => do
      let bus := ssd1306_send_command dev (U8.ofNat (0xB0 + page)) bus
      let bus := ssd1306_send_command dev 0x00 bus
      let bus := ssd1306_send_command dev 0x10 bus
      let data ← read_bytes dev.buffer (page * dev.width.val) dev.width.val
      pure (ssd1306_send_data dev data bus))
    (List.range (dev.height.val / 8))
    (by
      intro b page hpage _
      rw [List.mem_range, hh] at hpage
      dsimp only
      rw [read_bytes_ok _ _ _ (by rw [hw]; omega)]
      exact ⟨_, rfl, trivial⟩)
    bus trivial
  exact ⟨b, hb⟩

theorem draw_game_panel (s : State) (hp : panel_ok s.display) :
    ∃ dev1 bus1, draw_game s = .ok { s with display := dev1, bus := bus1 } ∧
      panel_ok dev1 := by
  unfold draw_game
  have h0 : panel_ok (ssd1306_clear s.display) := hp
  obtain ⟨d1, e1, hd1⟩ := foldlM_ok_of_inv panel_ok
    (fun dev y => (List.finRange 16).foldlM (fun dev x =>
      if s.grid.cells y x ≠ 0 then
        ssd1306_draw_rect_fill dev (U8.ofNat (x.val * 8)) (U8.ofNat (y.val * 8)) 8 8 true
      else pure dev) dev)
    (List.finRange 8)
    (by
      intro d y _ hd
      apply foldlM_ok_of_inv panel_ok _ _ _ d hd
      intro d1 x _ hd1
      by_cases hc : s.grid.cells y x ≠ 0
      · rw [if_pos hc]; exact draw_rect_fill_panel _ _ _ _ _ _ hd1
      · rw [if_neg hc]; exact ⟨d1, rfl, hd1⟩)
    _ h0
  obtain ⟨d2, e2, hd2⟩ := foldlM_ok_of_inv panel_ok
    (fun dev py => (List.range 4).foldlM (fun dev px =>
      if tetromino_cell s.current_shape s.current_rotation px py then
        let gx : Int := s.block_x + px
        let gy : Int := s.block_y + py
        if gx ≥ 0 ∧ gx < 16 ∧ gy ≥ 0 ∧ gy < 8 then
          ssd1306_draw_rect_fill dev (U8.ofInt (gx * 8)) (U8.ofInt (gy * 8)) 8 8 true
        else pure dev
      else pure dev) dev)
    (List.range 4)
    (by
      intro d py _ hd
      apply foldlM_ok_of_inv panel_ok _ _ _ d hd
      intro d1 px _ hd1
      by_cases hc : tetromino_cell s.current_shape s.current_rotation px py = true
      · rw [if_pos hc]
        simp only []
        split
        · exact draw_rect_fill_panel _ _ _ _ _ _ hd1
        · exact ⟨d1, rfl, hd1⟩
      · rw [if_neg hc]; exact ⟨d1, rfl, hd1⟩)
    d1 hd1
  obtain ⟨b, eb⟩ := show_panel d2 s.bus hd2
  refine ⟨d2, b, ?_, hd2⟩
  simp only [bind, Except.bind] at e1 e2 eb ⊢
  rw [e1]
  simp only []
  rw [e2]
  simp only []
  rw [eb]
  rfl

/-! ### Passes of the main loop -/

theorem redraw_if_needed_panel (s : State) (hp : panel_ok s.display) :
    ∃ dev1 bus1, redraw_if_needed s =
        .ok { s with display := dev1, bus := bus1, needs_redraw := false } ∧
      panel_ok dev1 := by
  unfold redraw_if_needed
  cases hn : s.needs_redraw
  · refine ⟨s.display, s.bus, ?_, hp⟩
    simp only [Bool.false_eq_true, if_false]
    rw [← hn]
    rfl
  · obtain ⟨dev1, bus1, h1, h2⟩ := draw_game_panel s hp
    refine ⟨dev1, bus1, ?_, h2⟩
    simp only [if_true]
    rw [h1]
    rfl

theorem down_press_moves (fuel : Nat) (s : State) (hgo : s.game_over = false)
    (hp : panel_ok s.display)
    (hfree : check_collision_shape s.grid s.block_x (s.block_y + 1)
      s.current_shape s.current_rotation = false) :
    ∃ dev1 bus1, main_loop_iteration fuel down_press s =
        .ok { s with block_y := s.block_y + 1, game_over_displayed := false,
                     needs_redraw := false, display := dev1, bus := bus1 } ∧
      panel_ok dev1 := by
  have e : playing_update fuel down_press s =
      .ok { s with block_y := s.block_y + 1, game_over_displayed := false,
                   needs_redraw := true } := by
    unfold playing_update input_step down_press
    simp [hfree]
    rfl
  obtain ⟨dev1, bus1, h1, h2⟩ := redraw_if_needed_panel
    { s with block_y := s.block_y + 1, game_over_displayed := false, needs_redraw := true } hp
  refine ⟨dev1, bus1, ?_, h2⟩
  unfold main_loop_iteration playing_iteration
  rw [if_pos (by simp [hgo]), e]
  exact h1

theorem down_press_blocked (fuel : Nat) (s : State) (hgo : s.game_over = false)
    (hp : panel_ok s.display)
    (hblocked : check_collision_shape s.grid s.block_x (s.block_y + 1)
      s.current_shape s.current_rotation = true) :
    ∃ dev1 bus1, main_loop_iteration fuel down_press s =
        .ok { s with game_over_displayed := false, needs_redraw := false,
                     display := dev1, bus := bus1 } ∧
      panel_ok dev1 := by
  have e : playing_update fuel down_press s =
      .ok { s with game_over_displayed := false } := by
    unfold playing_update input_step down_press
    simp [hblocked]
    rfl
  obtain ⟨dev1, bus1, h1, h2⟩ := redraw_if_needed_panel
    { s with game_over_displayed := false } hp
  refine ⟨dev1, bus1, ?_, h2⟩
  unfold main_loop_iteration playing_iteration
  rw [if_pos (by simp [hgo]), e]
  exact h1

theorem fall_tick_locks (fuel : Nat) (hfuel : 8 ≤ fuel) (r : Nat) (s : State)
    (hgo : s.game_over = false) (hp : panel_ok s.display)
    (hblocked : check_collision_shape s.grid s.block_x (s.block_y + 1)
      s.current_shape s.current_rotation = true)
    (hnofull : ∀ gy : Fin 8, ∃ gx : Fin 16,
      (lock_shape s.grid s.block_x s.block_y s.current_shape s.current_rotation).cells
        gy gx = 0) :
    ∃ dev1 bus1, main_loop_iteration fuel (fall_tick r) s =
        .ok { spawn_piece r { s with
                grid := lock_shape s.grid s.block_x s.block_y s.current_shape
                  s.current_rotation,
                led := s.led ++ [100], game_over_displayed := false } with
              needs_redraw := false, display := dev1, bus := bus1 } ∧
      panel_ok dev1 := by
  have e : playing_update fuel (fall_tick r) s =
      .ok { spawn_piece r { s with
                grid := lock_shape s.grid s.block_x s.block_y s.current_shape
                  s.current_rotation,
                led := s.led ++ [100], game_over_displayed := false } with
              needs_redraw := true } := by
    unfold playing_update input_step fall_tick gravity_step
    simp only [Bool.false_eq_true, if_false, hblocked, not_true_eq_false]
    rw [clear_lines_unchanged _ _ fuel hfuel hnofull]
    rfl
  have hp1 : panel_ok ({ spawn_piece r { s with
                grid := lock_shape s.grid s.block_x s.block_y s.current_shape
                  s.current_rotation,
                led := s.led ++ [100], game_over_displayed := false } with
              needs_redraw := true } : State).display := by
    unfold spawn_piece
    simp only []
    split <;> exact hp
  obtain ⟨dev1, bus1, h1, h2⟩ := redraw_if_needed_panel _ hp1
  refine ⟨dev1, bus1, ?_, h2⟩
  unfold main_loop_iteration playing_iteration
  rw [if_pos (by simp [hgo]), e]
  exact h1

/-! ### The end-to-end scenario -/

theorem square_free :
    ∀ k : Fin 6, check_collision_shape Grid.empty 6 ((k.val : Int) + 1) 3 0 = false := by
  decide

theorem square_blocked : check_collision_shape Grid.empty 6 (6 + 1) 3 0 = true := by
  decide

theorem square_locked_cells :
    ∀ (gy : Fin 8) (gx : Fin 16),
      (lock_shape Grid.empty 6 6 3 0).cells gy gx ≠ 0 ↔
        (6 ≤ gy.val ∧ 7 ≤ gx.val ∧ gx.val ≤ 8) := by
  decide

theorem square_locked_no_full :
    ∀ gy : Fin 8, (lock_shape Grid.empty 6 6 3 0).cells gy 0 = 0 := by
  decide

theorem spawn_after_square :
    ∀ shape : Fin 10,
      check_collision_shape (lock_shape Grid.empty 6 6 3 0) 6 0 shape 0 = false := by
  decide

theorem run_loop_append (fuel : Nat) (l1 l2 : List Input) (s : State) :
    run_loop fuel (l1 ++ l2) s = run_loop fuel l1 s >>= run_loop fuel l2 := by
  unfold run_loop
  rw [List.foldlM_append]

theorem run_loop_single (fuel : Nat) (inp : Input) (s : State) :
    run_loop fuel [inp] s = main_loop_iteration fuel inp s := by
  unfold run_loop
  simp only [List.foldlM]
  cases main_loop_iteration fuel inp s <;> rfl

theorem run_loop_snoc (fuel : Nat) (l : List Input) (inp : Input) (s s1 : State)
    (h : run_loop fuel l s = .ok s1) :
    run_loop fuel (l ++ [inp]) s = main_loop_iteration fuel inp s1 := by
  rw [run_loop_append, h]
  show run_loop fuel [inp] s1 = _
  rw [run_loop_single]

/-- The square falls one row per accepted Down press, for six presses. -/
theorem scenario_moves (fuel : Nat) (led : List Nat) (s0 : State)
    (h0 : falling_square led 0 s0) :
    ∀ k : Nat, k ≤ 6 →
      ∃ sk, run_loop fuel (List.replicate k down_press) s0 = .ok sk ∧
        falling_square led k sk := by
  intro k
  induction k with
  | zero => intro _; exact ⟨s0, rfl, h0⟩
  | succ n ih =>
    intro hk
    obtain ⟨sn, hrun, hg, hs, hr, hx, hy, hgo, hl, hp⟩ := ih (by omega)
    have hfree : check_collision_shape sn.grid sn.block_x (sn.block_y + 1)
        sn.current_shape sn.current_rotation = false := by
      rw [hg, hs, hr, hx, hy]
      exact square_free ⟨n, by omega⟩
    obtain ⟨dev1, bus1, h1, h2⟩ := down_press_moves fuel sn hgo hp hfree
    have hy1 : sn.block_y + 1 = ((n + 1 : Nat) : Int) := by rw [hy]; push_cast; rfl
    rw [List.replicate_succ', run_loop_snoc fuel _ _ _ _ hrun]
    exact ⟨_, h1, hg, hs, hr, hx, hy1, hgo, hl, h2⟩

/-- The whole scenario: six accepted Down presses bring the square to y = 6, where the
position below collides; a seventh press is ignored; the next fall tick locks the square
into rows 6-7, columns 7-8, pulses the LED and spawns a new piece at (6,0). -/
theorem scenario_spec (fuel : Nat) (hfuel : 8 ≤ fuel) (r : Nat) (led : List Nat)
    (s0 : State) (h0 : falling_square led 0 s0) :
    (∀ k : Nat, k ≤ 6 →
      ∃ sk, run_loop fuel (List.replicate k down_press) s0 = .ok sk ∧
        falling_square led k sk) ∧
    (∀ k : Nat, k < 6 → check_collision_shape Grid.empty 6 ((k : Int) + 1) 3 0 = false) ∧
    check_collision_shape Grid.empty 6 (6 + 1) 3 0 = true ∧
    (∃ s, run_loop fuel (List.replicate 6 down_press ++ [down_press]) s0 = .ok s ∧
      falling_square led 6 s) ∧
    ∃ s7, run_loop fuel (List.replicate 6 down_press ++ [fall_tick r]) s0 = .ok s7 ∧
      (∀ (gy : Fin 8) (gx : Fin 16),
        s7.grid.cells gy gx ≠ 0 ↔ (6 ≤ gy.val ∧ 7 ≤ gx.val ∧ gx.val ≤ 8)) ∧
      s7.block_x = 6 ∧ s7.block_y = 0 ∧ s7.current_rotation = 0 ∧
      s7.current_shape.val = r % 10 ∧ s7.game_over = false ∧ s7.led = led ++ [100] := by
  refine ⟨scenario_moves fuel led s0 h0, fun k hk => square_free ⟨k, hk⟩, square_blocked,
    ?_, ?_⟩
  · obtain ⟨s6, hrun, hg, hs, hr, hx, hy, hgo, hl, hp⟩ :=
      scenario_moves fuel led s0 h0 6 (le_refl _)
    have hb : check_collision_shape s6.grid s6.block_x (s6.block_y + 1)
        s6.current_shape s6.current_rotation = true := by
      rw [hg, hs, hr, hx, hy]; exact square_blocked
    obtain ⟨dev1, bus1, h1, h2⟩ := down_press_blocked fuel s6 hgo hp hb
    rw [run_loop_snoc fuel _ _ _ _ hrun]
    exact ⟨_, h1, hg, hs, hr, hx, hy, hgo, hl, h2⟩
  · obtain ⟨s6, hrun, hg, hs, hr, hx, hy, hgo, hl, hp⟩ :=
      scenario_moves fuel led s0 h0 6 (le_refl _)
    have hb : check_collision_shape s6.grid s6.block_x (s6.block_y + 1)
        s6.current_shape s6.current_rotation = true := by
      rw [hg, hs, hr, hx, hy]; exact square_blocked
    have hnf : ∀ gy : Fin 8, ∃ gx : Fin 16,
        (lock_shape s6.grid s6.block_x s6.block_y s6.current_shape
          s6.current_rotation).cells gy gx = 0 := by
      intro gy
      rw [hg, hs, hr, hx, hy]
      exact ⟨0, square_locked_no_full gy⟩
    obtain ⟨dev1, bus1, h1, h2⟩ := fall_tick_locks fuel hfuel r s6 hgo hp hb hnf
    have hsp : check_collision_shape (lock_shape Grid.empty 6 6 3 0)
        ((GRID_WIDTH / 2 - 2 : Nat) : Int) 0 ⟨r % 10, Nat.mod_lt _ (by decide)⟩ 0 = false :=
      spawn_after_square _
    have hy6 : s6.block_y = 6 := by rw [hy]; rfl
    rw [run_loop_snoc fuel _ _ _ _ hrun]
    refine ⟨_, h1, ?_⟩
    unfold spawn_piece
    simp only [hg, hs, hr, hx, hy6, hsp, hl, hgo, Bool.false_eq_true, if_false]
    refine ⟨square_locked_cells, ?_⟩
    simp [GRID_WIDTH]

/-- C8 (as the code has it): from the empty grid with the square (shape 3, rotation 0) at
anchor (6,0), Down presses are accepted while y < 6 (the position below is free) and bring
the anchor to y = 6, where the collision test at y+1 is true and a further press is
ignored; the next fall tick locks the square into rows 6-7, columns 7-8 (the pattern
0x6600 occupies offsets 1 and 2 of the window) and no other cell, pulses the LED for
100 ms and spawns a new piece at anchor (6,0) with rotation 0. -/
theorem scenario_square_drop (fuel : Nat) (hfuel : 8 ≤ fuel) (r : Nat) (led : List Nat)
    (s0 : State) (h0 : falling_square led 0 s0) :
    (∀ k : Nat, k ≤ 6 →
      ∃ sk, run_loop fuel (List.replicate k down_press) s0 = .ok sk ∧
        falling_square led k sk) ∧
    (∀ k : Nat, k < 6 → check_collision_shape Grid.empty 6 ((k : Int) + 1) 3 0 = false) ∧
    check_collision_shape Grid.empty 6 (6 + 1) 3 0 = true ∧
    (∃ s, run_loop fuel (List.replicate 6 down_press ++ [down_press]) s0 = .ok s ∧
      falling_square led 6 s) ∧
    ∃ s7, run_loop fuel (List.replicate 6 down_press ++ [fall_tick r]) s0 = .ok s7 ∧
      (∀ (gy : Fin 8) (gx : Fin 16),
        s7.grid.cells gy gx ≠ 0 ↔ (6 ≤ gy.val ∧ 7 ≤ gx.val ∧ gx.val ≤ 8)) ∧
      s7.block_x = 6 ∧ s7.block_y = 0 ∧ s7.current_rotation = 0 ∧
      s7.current_shape.val = r % 10 ∧ s7.game_over = false ∧ s7.led = led ++ [100] :=
  scenario_spec fuel hfuel r led s0 h0

theorem square_start_falling : falling_square [] 0 square_start :=
  ⟨rfl, rfl, rfl, rfl, rfl, rfl, rfl, rfl, rfl⟩

/-- Witness for C8: the scenario from `square_start`, fuel 8, rand() = 4. -/
theorem scenario_square_drop_witness :
    8 ≤ 8 ∧ falling_square [] 0 square_start ∧
    ∃ s7, run_loop 8 (List.replicate 6 down_press ++ [fall_tick 4]) square_start = .ok s7 ∧
      (∀ (gy : Fin 8) (gx : Fin 16),
        s7.grid.cells gy gx ≠ 0 ↔ (6 ≤ gy.val ∧ 7 ≤ gx.val ∧ gx.val ≤ 8)) ∧
      s7.block_x = 6 ∧ s7.block_y = 0 ∧ s7.current_rotation = 0 ∧
      s7.current_shape.val = 4 % 10 ∧ s7.game_over = false ∧ s7.led = [] ++ [100] :=
  ⟨le_refl _, square_start_falling,
    (scenario_square_drop 8 (le_refl _) 4 [] square_start square_start_falling).2.2.2.2⟩

/-- C8 fails as stated: after the scenario the cell in row 6, column 6 is empty and the
cell in row 6, column 8 is occupied, so the locked square is not in columns 6-7. -/
theorem scenario_square_drop_counterexample :
    ∃ s7, run_loop 8 (List.replicate 6 down_press ++ [fall_tick 4]) square_start = .ok s7 ∧
      s7.grid.cells 6 6 = 0 ∧ s7.grid.cells 6 8 ≠ 0 := by
  obtain ⟨s7, h1, h2, _⟩ :=
    (scenario_spec 8 (le_refl _) 4 [] square_start square_start_falling).2.2.2.2
  refine ⟨s7, h1, ?_, ?_⟩
  · have := (h2 6 6).not
    simp only [ne_eq, not_not] at this
    exact this.2 (by decide)
  · exact (h2 6 8).2 (by decide)

/-- What input_step does when the debounce time has passed, by cases on which of the
three candidate positions are pressed and free. -/
theorem input_step_cases (inp : Input) (s : State) (h : inp.debounce_elapsed = true) :
    ((inp.left = true ∧ check_collision_shape s.grid (s.block_x - 1) s.block_y
        s.current_shape s.current_rotation = false) →
      input_step inp s = ({ s with block_x := s.block_x - 1 }, true)) ∧
    (¬ (inp.left = true ∧ check_collision_shape s.grid (s.block_x - 1) s.block_y
        s.current_shape s.current_rotation = false) →
      (inp.right = true ∧ check_collision_shape s.grid (s.block_x + 1) s.block_y
        s.current_shape s.current_rotation = false) →
      input_step inp s = ({ s with block_x := s.block_x + 1 }, true)) ∧
    (¬ (inp.left = true ∧ check_collision_shape s.grid (s.block_x - 1) s.block_y
        s.current_shape s.current_rotation = false) →
      ¬ (inp.right = true ∧ check_collision_shape s.grid (s.block_x + 1) s.block_y
        s.current_shape s.current_rotation = false) →
      (inp.down = true ∧ check_collision_shape s.grid s.block_x (s.block_y + 1)
        s.current_shape s.current_rotation = false) →
      input_step inp s = ({ s with block_y := s.block_y + 1 }, true)) ∧
    (¬ (inp.left = true ∧ check_collision_shape s.grid (s.block_x - 1) s.block_y
        s.current_shape s.current_rotation = false) →
      ¬ (inp.right = true ∧ check_collision_shape s.grid (s.block_x + 1) s.block_y
        s.current_shape s.current_rotation = false) →
      ¬ (inp.down = true ∧ check_collision_shape s.grid s.block_x (s.block_y + 1)
        s.current_shape s.current_rotation = false) →
      input_step inp s = (s, false)) := by
  unfold input_step
  rw [if_pos h]
  generalize check_collision_shape s.grid (s.block_x - 1) s.block_y
      s.current_shape s.current_rotation = c1
  generalize check_collision_shape s.grid (s.block_x + 1) s.block_y
      s.current_shape s.current_rotation = c2
  generalize check_collision_shape s.grid s.block_x (s.block_y + 1)
      s.current_shape s.current_rotation = c3
  cases inp.left <;> cases inp.right <;> cases inp.down <;> cases c1 <;> cases c2 <;>
    cases c3 <;> simp

/-- C9 (as the code has it): an accepted input sample applies the offset of the first
direction, in the order Left, Right, Down, that is pressed and whose candidate position
does not collide, and no other; a pressed direction whose candidate collides is passed
over and the next one in the order is tried; when no pressed direction is free the state
is unchanged. Only the anchor changes. -/
theorem input_step_priority (inp : Input) (s : State) (h : inp.debounce_elapsed = true) :
    (input_step inp s).1 =
      { s with block_x := s.block_x + (first_free_offset inp s).1,
               block_y := s.block_y + (first_free_offset inp s).2 } ∧
    (input_step inp s).2 = decide (first_free_offset inp s ≠ (0, 0)) ∧
    ((inp.left = true ∧ check_collision_shape s.grid (s.block_x - 1) s.block_y
        s.current_shape s.current_rotation = false) →
      input_step inp s = ({ s with block_x := s.block_x - 1 }, true)) ∧
    (¬ (inp.left = true ∧ check_collision_shape s.grid (s.block_x - 1) s.block_y
        s.current_shape s.current_rotation = false) →
      (inp.right = true ∧ check_collision_shape s.grid (s.block_x + 1) s.block_y
        s.current_shape s.current_rotation = false) →
      input_step inp s = ({ s with block_x := s.block_x + 1 }, true)) ∧
    (¬ (inp.left = true ∧ check_collision_shape s.grid (s.block_x - 1) s.block_y
        s.current_shape s.current_rotation = false) →
      ¬ (inp.right = true ∧ check_collision_shape s.grid (s.block_x + 1) s.block_y
        s.current_shape s.current_rotation = false) →
      (inp.down = true ∧ check_collision_shape s.grid s.block_x (s.block_y + 1)
        s.current_shape s.current_rotation = false) →
      input_step inp s = ({ s with block_y := s.block_y + 1 }, true)) ∧
    (¬ (inp.left = true ∧ check_collision_shape s.grid (s.block_x - 1) s.block_y
        s.current_shape s.current_rotation = false) →
      ¬ (inp.right = true ∧ check_collision_shape s.grid (s.block_x + 1) s.block_y
        s.current_shape s.current_rotation = false) →
      ¬ (inp.down = true ∧ check_collision_shape s.grid s.block_x (s.block_y + 1)
        s.current_shape s.current_rotation = false) →
      input_step inp s = (s, false)) :=
  ⟨(input_step_eq inp s h).1, (input_step_eq inp s h).2, input_step_cases inp s h⟩

/-- Witness for C9: the square against the left wall with Left and Down pressed; Left is
blocked, Right is not pressed, Down is free, and the piece moves down. -/
theorem input_step_priority_witness :
    left_and_down.debounce_elapsed = true ∧
    input_step left_and_down square_at_left_wall =
      ({ square_at_left_wall with block_y := square_at_left_wall.block_y + 1 }, true) :=
  ⟨rfl, (input_step_priority left_and_down square_at_left_wall rfl).2.2.2.2.1
    (by decide) (by decide) (by decide)⟩

/-- C9 fails as stated: with Left and Down pressed and the square against the left wall,
the highest-priority pressed direction (Left) collides, yet the anchor is not left
unchanged: the Down move is applied in the same sample. -/
theorem input_step_priority_counterexample :
    left_and_down.debounce_elapsed = true ∧ left_and_down.left = true ∧
    square_at_left_wall.game_over = false ∧
    check_collision_shape square_at_left_wall.grid (square_at_left_wall.block_x - 1)
      square_at_left_wall.block_y square_at_left_wall.current_shape
      square_at_left_wall.current_rotation = true ∧
    (input_step left_and_down square_at_left_wall).1.block_x = square_at_left_wall.block_x ∧
    (input_step left_and_down square_at_left_wall).1.block_y =
      square_at_left_wall.block_y + 1 := by
  decide

/-! ### ssd1306_show -/

/-- The pages of the list are emitted one after the other, each as its group of four
writes, when every page lies inside the buffer. -/
theorem show_pages (dev : ssd1306_t) (hw : dev.width.val = 128) :
    ∀ (l : List Nat) (bus : List I2CWrite), (∀ p ∈ l, p < 8) →
      l.foldlM (fun bus page => do
        let bus := ssd1306_send_command dev (U8.ofNat (0xB0 + page)) bus
        let bus := ssd1306_send_command dev 0x00 bus
        let bus := ssd1306_send_command dev 0x10 bus
        let data ← read_bytes dev.buffer (page * dev.width.val) dev.width.val
        pure (ssd1306_send_data dev data bus)) bus =
      (.ok (bus ++ l.flatMap (page_group dev)) : Except Fault (List I2CWrite)) := by
  intro l
  induction l with
  | nil => intro bus _; simp [List.foldlM]; rfl
  | cons p l ih =>
    intro bus hl
    have hp : p < 8 := hl p (List.mem_cons_self _ _)
    rw [List.foldlM_cons, read_bytes_ok _ _ _ (by rw [hw]; omega)]
    show List.foldlM _ _ l = _
    rw [ih _ (fun q hq => hl q (List.mem_cons_of_mem _ hq))]
    simp only [ssd1306_send_command, ssd1306_send_data, List.flatMap_cons, page_group, hw,
      List.append_assoc, List.cons_append, List.nil_append, List.singleton_append]
    rfl

theorem show_panel_eq (dev : ssd1306_t) (bus : List I2CWrite) (hp : panel_ok dev) :
    ssd1306_show dev bus =
      .ok (bus ++ page_group dev 0 ++ page_group dev 1 ++ page_group dev 2 ++
        page_group dev 3 ++ page_group dev 4 ++ page_group dev 5 ++ page_group dev 6 ++
        page_group dev 7) := by
  have hw : dev.width.val = 128 := by rw [hp.1]; rfl
  have hh : dev.height.val / 8 = 8 := by rw [hp.2]; rfl
  unfold ssd1306_show
  rw [hh, show_pages dev hw (List.range 8) bus (fun p hp => List.mem_range.1 hp)]
  have e : List.range 8 = [0, 1, 2, 3, 4, 5, 6, 7] := by decide
  rw [e]
  simp only [List.flatMap_cons, List.flatMap_nil, List.append_nil, List.append_assoc]

/-! ### Pixels of the 128x64 surface -/

theorem Paints.none (c : Bool) (dev : ssd1306_t) (hp : panel_ok dev) :
    Paints c (fun _ _ => False) dev dev :=
  ⟨hp, rfl, fun _ _ _ _ => Or.inr ⟨fun h => h, rfl⟩⟩

theorem Paints.congr {c : Bool} {H H1 : Nat → Nat → Prop} {dev dev1 : ssd1306_t}
    (h : Paints c H dev dev1) (e : ∀ px py, px < 128 → py < 64 → (H px py ↔ H1 px py)) :
    Paints c H1 dev dev1 := by
  refine ⟨h.1, h.2.1, ?_⟩
  intro px py hx hy
  rcases h.2.2 px py hx hy with ⟨h1, h2⟩ | ⟨h1, h2⟩
  · exact Or.inl ⟨(e px py hx hy).1 h1, h2⟩
  · exact Or.inr ⟨fun hh => h1 ((e px py hx hy).2 hh), h2⟩

theorem Paints.trans {c : Bool} {H1 H2 : Nat → Nat → Prop} {dev dev1 dev2 : ssd1306_t}
    (h1 : Paints c H1 dev dev1) (h2 : Paints c H2 dev1 dev2) :
    Paints c (fun px py => H1 px py ∨ H2 px py) dev dev2 := by
  refine ⟨h2.1, h2.2.1.trans h1.2.1, ?_⟩
  intro px py hx hy
  rcases h2.2.2 px py hx hy with ⟨a, b⟩ | ⟨a, b⟩
  · exact Or.inl ⟨Or.inr a, b⟩
  · rcases h1.2.2 px py hx hy with ⟨a1, b1⟩ | ⟨a1, b1⟩
    · exact Or.inl ⟨Or.inl a1, by rw [b, b1]⟩
    · exact Or.inr ⟨fun hh => hh.elim a1 a, by rw [b, b1]⟩

/-- A monadic loop over the panel whose every step paints its own set of pixels paints
the union of these sets. -/
theorem foldlM_paints {α : Type} (c : Bool) (f : ssd1306_t → α → Except Fault ssd1306_t)
    (hit : α → Nat → Nat → Prop) :
    ∀ (l : List α),
      (∀ dev a, a ∈ l → panel_ok dev → ∃ dev1, f dev a = .ok dev1 ∧ Paints c (hit a) dev dev1) →
      ∀ dev, panel_ok dev →
        ∃ dev1, l.foldlM f dev = .ok dev1 ∧
          Paints c (fun px py => ∃ a ∈ l, hit a px py) dev dev1 := by
  intro l
  induction l with
  | nil =>
    intro _ dev hp
    exact ⟨dev, rfl, (Paints.none c dev hp).congr (by simp)⟩
  | cons a l ih =>
    intro hf dev hp
    obtain ⟨dev1, e1, p1⟩ := hf dev a (List.mem_cons_self _ _) hp
    obtain ⟨dev2, e2, p2⟩ := ih (fun d b hb => hf d b (List.mem_cons_of_mem _ hb)) dev1 p1.1
    refine ⟨dev2, ?_, (p1.trans p2).congr ?_⟩
    · rw [List.foldlM_cons, e1]; exact e2
    · intro px py _ _
      simp only [List.mem_cons, exists_eq_or_imp]

theorem byte_at_lt (buffer : Fin 1024 → U8) (i : Nat) (h : i < 1024) :
    byte_at buffer i = buffer ⟨i, h⟩ := by
  unfold byte_at
  rw [dif_pos h]

/-- On the 128x64 panel ssd1306_draw_pixel gives pixel (x,y) the colour and leaves all
other pixels of the surface as they were; a pixel outside the surface changes nothing. -/
theorem draw_pixel_paints (dev : ssd1306_t) (x y : U8) (color : Bool) (hp : panel_ok dev) :
    ∃ dev1, ssd1306_draw_pixel dev x y color = .ok dev1 ∧
      Paints color (fun px py => px = x.val ∧ py = y.val) dev dev1 := by
  have hw : dev.width.val = 128 := by rw [hp.1]; rfl
  have hh : dev.height.val = 64 := by rw [hp.2]; rfl
  by_cases ho : x.val ≥ dev.width.val ∨ y.val ≥ dev.height.val
  · refine ⟨dev, draw_pixel_outside dev x y color ho, hp, rfl, ?_⟩
    intro px py hx hy
    exact Or.inr ⟨fun h => by omega, rfl⟩
  · have hx : x.val < 128 := by omega
    have hy : y.val < 64 := by omega
    obtain ⟨dev1, h1, h2, h3, h4, h5, _⟩ := draw_pixel_inside dev x y color (by omega)
      (by omega) (by rw [hw]; omega)
    have hw1 : dev1.width.val = 128 := by rw [h2]; exact hw
    refine ⟨dev1, h1, ⟨by rw [h2]; exact hp.1, by rw [h3]; exact hp.2⟩, h4, ?_⟩
    intro px py hpx hpy
    have e1 : pixel_at dev1 px py =
        if (py / 8) * 128 + px = (y.val / 8) * 128 + x.val ∧ py % 8 = y.val % 8 then color
        else pixel_at dev px py := by
      unfold pixel_at
      rw [hw1, hw, byte_at_lt _ _ (by omega), byte_at_lt _ _ (by omega), h5, hw]
    rw [e1]
    by_cases hc : px = x.val ∧ py = y.val
    · left
      refine ⟨hc, ?_⟩
      rw [if_pos]
      rw [hc.1, hc.2]
      exact ⟨rfl, rfl⟩
    · right
      refine ⟨hc, ?_⟩
      rw [if_neg]
      intro h
      apply hc
      omega

/-- On the 128x64 panel ssd1306_draw_rect_fill gives the colour to the pixels
((x+dx) mod 256, (y+dy) mod 256), dx < w, dy < h, that lie on the surface, and leaves all
other pixels of the surface as they were. -/
theorem draw_rect_fill_paints (dev : ssd1306_t) (x y w h : U8) (fill : Bool)
    (hp : panel_ok dev) :
    ∃ dev1, ssd1306_draw_rect_fill dev x y w h fill = .ok dev1 ∧
      Paints fill (fun px py => ∃ dx, dx < w.val ∧ ∃ dy, dy < h.val ∧
        px = (x.val + dx) % 256 ∧ py = (y.val + dy) % 256) dev dev1 := by
  unfold ssd1306_draw_rect_fill
  obtain ⟨dev1, e1, p1⟩ := foldlM_paints fill
    (fun dev dx => (List.range h.val).foldlM (fun dev dy =>
      ssd1306_draw_pixel dev (U8.ofNat (x.val + dx)) (U8.ofNat (y.val + dy)) fill) dev)
    (fun dx px py => ∃ dy ∈ List.range h.val,
      px = (x.val + dx) % 256 ∧ py = (y.val + dy) % 256)
    (List.range w.val)
    (by
      intro d dx _ hd
      exact foldlM_paints fill _
        (fun dy px py => px = (x.val + dx) % 256 ∧ py = (y.val + dy) % 256)
        (List.range h.val)
        (fun d1 dy _ hd1 => draw_pixel_paints d1 _ _ fill hd1) d hd)
    dev hp
  refine ⟨dev1, e1, p1.congr ?_⟩
  intro px py _ _
  simp only [List.mem_range]

theorem pixel_at_clear (dev : ssd1306_t) (px py : Nat) :
    pixel_at (ssd1306_clear dev) px py = false := by
  unfold pixel_at ssd1306_clear byte_at
  simp only []
  split <;> exact Nat.zero_testBit _

/-- One 8x8 block: the pixels painted by ssd1306_draw_rect_fill at (8*gx, 8*gy) with
width and height 8 are those of grid cell (gx,gy). -/
theorem block_pixels (gx gy px py : Nat) (hgx : gx < 16) (hgy : gy < 8) :
    (∃ dx, dx < (8 : U8).val ∧ ∃ dy, dy < (8 : U8).val ∧
      px = ((U8.ofNat (gx * 8)).val + dx) % 256 ∧
      py = ((U8.ofNat (gy * 8)).val + dy) % 256) ↔ (px / 8 = gx ∧ py / 8 = gy) := by
  have e8 : (8 : U8).val = 8 := rfl
  have ex : (U8.ofNat (gx * 8)).val = gx * 8 := by
    unfold U8.ofNat; simp only []; omega
  have ey : (U8.ofNat (gy * 8)).val = gy * 8 := by
    unfold U8.ofNat; simp only []; omega
  rw [e8, ex, ey]
  constructor
  · rintro ⟨dx, hdx, dy, hdy, h1, h2⟩
    omega
  · rintro ⟨h1, h2⟩
    exact ⟨px % 8, by omega, py % 8, by omega, by omega, by omega⟩

theorem ofInt_block (g : Int) (h0 : 0 ≤ g) (h1 : g < 16) :
    U8.ofInt (g * 8) = U8.ofNat (g.toNat * 8) := by
  unfold U8.ofInt U8.ofNat
  ext
  simp only []
  omega

/-- The first loop of draw_game: one block per occupied grid cell. -/
theorem draw_grid_paints (grid : Grid) (dev : ssd1306_t) (hp : panel_ok dev) :
    ∃ dev1, (List.finRange 8).foldlM (fun dev y =>
        (List.finRange 16).foldlM (fun dev x =>
          if grid.cells y x ≠ 0 then
            ssd1306_draw_rect_fill dev (U8.ofNat (x.val * 8)) (U8.ofNat (y.val * 8)) 8 8 true
          else pure dev) dev) dev = .ok dev1 ∧
      Paints true (fun px py => ∃ (y : Fin 8) (x : Fin 16),
        grid.cells y x ≠ 0 ∧ px / 8 = x.val ∧ py / 8 = y.val) dev dev1 := by
  obtain ⟨dev1, e1, p1⟩ := foldlM_paints true
    (fun dev (y : Fin 8) => (List.finRange 16).foldlM (fun dev x =>
      if grid.cells y x ≠ 0 then
        ssd1306_draw_rect_fill dev (U8.ofNat (x.val * 8)) (U8.ofNat (y.val * 8)) 8 8 true
      else pure dev) dev)
    (fun y px py => ∃ x ∈ List.finRange 16,
      grid.cells y x ≠ 0 ∧ px / 8 = x.val ∧ py / 8 = y.val)
    (List.finRange 8)
    (by
      intro d y _ hd
      refine foldlM_paints true _
        (fun (x : Fin 16) px py => grid.cells y x ≠ 0 ∧ px / 8 = x.val ∧ py / 8 = y.val)
        (List.finRange 16) ?_ d hd
      intro d1 x _ hd1
      by_cases hc : grid.cells y x ≠ 0
      · rw [if_pos hc]
        obtain ⟨d2, e2, p2⟩ := draw_rect_fill_paints d1 (U8.ofNat (x.val * 8))
          (U8.ofNat (y.val * 8)) 8 8 true hd1
        refine ⟨d2, e2, p2.congr ?_⟩
        intro px py _ _
        rw [block_pixels x.val y.val px py x.isLt y.isLt]
        exact ⟨fun h => ⟨hc, h⟩, fun h => h.2⟩
      · rw [if_neg hc]
        exact ⟨d1, rfl, (Paints.none true d1 hd1).congr
          (fun px py _ _ => ⟨fun h => h.elim, fun h => hc h.1⟩)⟩)
    dev hp
  refine ⟨dev1, e1, p1.congr ?_⟩
  intro px py _ _
  simp only [List.mem_finRange, true_and]

/-- The second loop of draw_game: one block per occupied cell of the falling piece that
lies inside the grid. -/
theorem draw_piece_paints (shape : Fin 10) (rotation : Fin 4) (bx by0 : Int)
    (dev : ssd1306_t) (hp : panel_ok dev) :
    ∃ dev1, (List.range 4).foldlM (fun dev py =>
        (List.range 4).foldlM (fun dev px =>
          if tetromino_cell shape rotation px py then
            let gx : Int := bx + px
            let gy : Int := by0 + py
            if gx ≥ 0 ∧ gx < 16 ∧ gy ≥ 0 ∧ gy < 8 then
              ssd1306_draw_rect_fill dev (U8.ofInt (gx * 8)) (U8.ofInt (gy * 8)) 8 8 true
            else pure dev
          else pure dev) dev) dev = .ok dev1 ∧
      Paints true (fun px py => ∃ cy, cy < 4 ∧ ∃ cx, cx < 4 ∧
        tetromino_cell shape rotation cx cy = true ∧
        bx + (cx : Int) = ((px / 8 : Nat) : Int) ∧
        by0 + (cy : Int) = ((py / 8 : Nat) : Int)) dev dev1 := by
  obtain ⟨dev1, e1, p1⟩ := foldlM_paints true
    (fun dev (py : Nat) => (List.range 4).foldlM (fun dev px =>
      if tetromino_cell shape rotation px py then
        let gx : Int := bx + px
        let gy : Int := by0 + py
        if gx ≥ 0 ∧ gx < 16 ∧ gy ≥ 0 ∧ gy < 8 then
          ssd1306_draw_rect_fill dev (U8.ofInt (gx * 8)) (U8.ofInt (gy * 8)) 8 8 true
        else pure dev
      else pure dev) dev)
    (fun cy px py => ∃ cx ∈ List.range 4,
        tetromino_cell shape rotation cx cy = true ∧
        bx + (cx : Int) = ((px / 8 : Nat) : Int) ∧
        by0 + (cy : Int) = ((py / 8 : Nat) : Int))
    (List.range 4)
    (by
      intro d cy _ hd
      refine foldlM_paints true _
        (fun cx px py => tetromino_cell shape rotation cx cy = true ∧
          bx + (cx : Int) = ((px / 8 : Nat) : Int) ∧
          by0 + (cy : Int) = ((py / 8 : Nat) : Int))
        (List.range 4) ?_ d hd
      intro d1 cx _ hd1
      by_cases hc : tetromino_cell shape rotation cx cy = true
      · rw [if_pos hc]
        simp only []
        by_cases hb : bx + (cx : Int) ≥ 0 ∧ bx + (cx : Int) < 16 ∧
            by0 + (cy : Int) ≥ 0 ∧ by0 + (cy : Int) < 8
        · rw [if_pos hb, ofInt_block _ hb.1 hb.2.1, ofInt_block _ hb.2.2.1 (by omega)]
          obtain ⟨d2, e2, p2⟩ := draw_rect_fill_paints d1
            (U8.ofNat ((bx + (cx : Int)).toNat * 8))
            (U8.ofNat ((by0 + (cy : Int)).toNat * 8)) 8 8 true hd1
          refine ⟨d2, e2, p2.congr ?_⟩
          intro px py _ _
          rw [block_pixels _ _ px py (by omega) (by omega)]
          constructor
          · rintro ⟨h1, h2⟩; exact ⟨hc, by omega, by omega⟩
          · rintro ⟨_, h1, h2⟩; omega
        · rw [if_neg hb]
          refine ⟨d1, rfl, (Paints.none true d1 hd1).congr ?_⟩
          intro px py hpx hpy
          constructor
          · intro h; exact h.elim
          · rintro ⟨_, h1, h2⟩
            apply hb
            omega
      · rw [if_neg hc]
        exact ⟨d1, rfl, (Paints.none true d1 hd1).congr
          (fun px py _ _ => ⟨fun h => h.elim, fun h => hc h.1⟩)⟩)
    dev hp
  refine ⟨dev1, e1, p1.congr ?_⟩
  intro px py _ _
  simp only [List.mem_range]

/-! ### draw_game -/

/-- What draw_game can change: only the display and the I2C log. -/
theorem draw_game_fields (s s1 : State) (h : draw_game s = .ok s1) :
    ∃ d b, s1 = { s with display := d, bus := b } := by
  unfold draw_game at h
  simp only [bind, Except.bind] at h
  split at h
  · cases h
  · split at h
    · cases h
    · split at h
      · cases h
      · injection h with h
        exact ⟨_, _, h.symm⟩

/-- The result of draw_game on the 128x64 panel: it returns, changes only the display and
the I2C log, and a pixel of the surface ends up set exactly when it lies in the block of
an occupied grid cell or of a cell of the falling piece. -/
theorem draw_game_paints (s : State) (hp : panel_ok s.display) :
    ∃ dev1 bus1, draw_game s = .ok { s with display := dev1, bus := bus1 } ∧
      panel_ok dev1 ∧ dev1.address = s.display.address ∧
      ssd1306_show dev1 s.bus = .ok bus1 ∧
      ∀ px py : Nat, px < 128 → py < 64 →
        (pixel_at dev1 px py = true ↔
          ((∃ (y : Fin 8) (x : Fin 16),
              s.grid.cells y x ≠ 0 ∧ px / 8 = x.val ∧ py / 8 = y.val) ∨
            ∃ cy, cy < 4 ∧ ∃ cx, cx < 4 ∧
              tetromino_cell s.current_shape s.current_rotation cx cy = true ∧
              s.block_x + (cx : Int) = ((px / 8 : Nat) : Int) ∧
              s.block_y + (cy : Int) = ((py / 8 : Nat) : Int))) := by
  have h0 : panel_ok (ssd1306_clear s.display) := hp
  obtain ⟨d1, e1, p1⟩ := draw_grid_paints s.grid (ssd1306_clear s.display) h0
  obtain ⟨d2, e2, p2⟩ := draw_piece_paints s.current_shape s.current_rotation
    s.block_x s.block_y d1 p1.1
  obtain ⟨b, eb⟩ := show_panel d2 s.bus p2.1
  have p := p1.trans p2
  refine ⟨d2, b, ?_, p.1, p.2.1, eb, ?_⟩
  · unfold draw_game
    simp only [bind, Except.bind]
    rw [e1]
    simp only []
    rw [e2]
    simp only []
    rw [eb]
    rfl
  · intro px py hx hy
    rcases p.2.2 px py hx hy with ⟨a, b1⟩ | ⟨a, b1⟩
    · exact ⟨fun _ => a, fun _ => b1⟩
    · rw [b1, pixel_at_clear]
      exact ⟨fun h => absurd h (by decide), fun h => absurd h a⟩

/-- C11: on the 128x64 panel ssd1306_show appends to the I2C log exactly the groups of
pages 0..7 in that order, each group being the commands 0xB0+p, 0x00, 0x10 and then one
data transfer of the 128 bytes buffer[p*128 .. p*128+127]; nothing else is written, and
the function returns no new device: the buffer is only read. -/
theorem show_emits_eight_pages (dev : ssd1306_t) (bus : List I2CWrite) (hp : panel_ok dev) :
    ssd1306_show dev bus =
      .ok (bus ++ page_group dev 0 ++ page_group dev 1 ++ page_group dev 2 ++
        page_group dev 3 ++ page_group dev 4 ++ page_group dev 5 ++ page_group dev 6 ++
        page_group dev 7) ∧
    (∀ (p : Nat) (hp8 : p < 8),
      ∃ data : List U8, data.length = 128 ∧
        page_group dev p =
          [⟨dev.address, [0x00, U8.ofNat (0xB0 + p)]⟩, ⟨dev.address, [0x00, 0x00]⟩,
           ⟨dev.address, [0x00, 0x10]⟩, ⟨dev.address, 0x40 :: data⟩] ∧
        (U8.ofNat (0xB0 + p)).val = 0xB0 + p ∧
        ∀ (i : Nat) (hi : i < 128), data[i]? = some (dev.buffer ⟨p * 128 + i, by omega⟩)) := by
  refine ⟨show_panel_eq dev bus hp, ?_⟩
  intro p hp8
  refine ⟨(List.range 128).map fun i => byte_at dev.buffer (p * 128 + i), by simp, rfl, ?_, ?_⟩
  · unfold U8.ofNat; simp only []; omega
  · intro i hi
    rw [List.getElem?_map, List.getElem?_range hi, Option.map_some', byte_at_lt _ _ (by omega)]

/-- Witness for C11: the panel as `main` sets it up, with an empty I2C log. -/
theorem show_emits_eight_pages_witness :
    panel_ok panel_128x64 ∧
    ssd1306_show panel_128x64 [] =
      .ok ([] ++ page_group panel_128x64 0 ++ page_group panel_128x64 1 ++
        page_group panel_128x64 2 ++ page_group panel_128x64 3 ++
        page_group panel_128x64 4 ++ page_group panel_128x64 5 ++
        page_group panel_128x64 6 ++ page_group panel_128x64 7) :=
  ⟨⟨rfl, rfl⟩, (show_emits_eight_pages panel_128x64 [] ⟨rfl, rfl⟩).1⟩

/-- C12: on the 128x64 panel draw_game returns, changes only the display and the I2C log,
and afterwards a pixel (px,py) of the surface is set exactly when grid cell (px/8, py/8)
is occupied or a cell of the falling piece lies at grid position (px/8, py/8). -/
theorem draw_game_blocks (s : State) (hp : panel_ok s.display) :
    ∃ dev1 bus1, draw_game s = .ok { s with display := dev1, bus := bus1 } ∧
      ∀ (px py : Nat) (hx : px < 128) (hy : py < 64),
        (pixel_at dev1 px py = true ↔
          (s.grid.cells ⟨py / 8, by omega⟩ ⟨px / 8, by omega⟩ ≠ 0 ∨
            ∃ cx cy : Nat, cx < 4 ∧ cy < 4 ∧
              tetromino_cell s.current_shape s.current_rotation cx cy = true ∧
              s.block_x + (cx : Int) = ((px / 8 : Nat) : Int) ∧
              s.block_y + (cy : Int) = ((py / 8 : Nat) : Int))) := by
  obtain ⟨dev1, bus1, h1, _, _, _, h2⟩ := draw_game_paints s hp
  refine ⟨dev1, bus1, h1, ?_⟩
  intro px py hx hy
  rw [h2 px py hx hy]
  constructor
  · rintro (⟨y, x, hc, ex, ey⟩ | ⟨cy, hcy, cx, hcx, h⟩)
    · left
      have e1 : (⟨py / 8, by omega⟩ : Fin 8) = y := Fin.ext ey
      have e2 : (⟨px / 8, by omega⟩ : Fin 16) = x := Fin.ext ex
      rw [e1, e2]; exact hc
    · exact Or.inr ⟨cx, cy, hcx, hcy, h⟩
  · rintro (hc | ⟨cx, cy, hcx, hcy, h⟩)
    · exact Or.inl ⟨⟨py / 8, by omega⟩, ⟨px / 8, by omega⟩, hc, rfl, rfl⟩
    · exact Or.inr ⟨cy, hcy, cx, hcx, h⟩

/-- Witness for C12: the start of the scenario (empty grid, square at (6,0)). -/
theorem draw_game_blocks_witness :
    panel_ok square_start.display ∧
    ∃ dev1 bus1, draw_game square_start =
        .ok { square_start with display := dev1, bus := bus1 } ∧
      ∀ (px py : Nat) (hx : px < 128) (hy : py < 64),
        (pixel_at dev1 px py = true ↔
          (square_start.grid.cells ⟨py / 8, by omega⟩ ⟨px / 8, by omega⟩ ≠ 0 ∨
            ∃ cx cy : Nat, cx < 4 ∧ cy < 4 ∧
              tetromino_cell square_start.current_shape square_start.current_rotation
                cx cy = true ∧
              square_start.block_x + (cx : Int) = ((px / 8 : Nat) : Int) ∧
              square_start.block_y + (cy : Int) = ((py / 8 : Nat) : Int))) :=
  ⟨⟨rfl, rfl⟩, draw_game_blocks square_start ⟨rfl, rfl⟩⟩

/-! ### tetromino_cell -/

theorem tetromino_cell_table :
    ∀ (shape : Fin 10) (rotation : Fin 4) (px py : Fin 4),
      tetromino_cell shape rotation px.val py.val =
        (tetromino_bits shape rotation).testBit (15 - (py.val * 4 + px.val)) := by
  decide

theorem tetromino_bits_16 :
    ∀ (shape : Fin 10) (rotation : Fin 4), tetromino_bits shape rotation < 65536 := by
  decide

/-- C13: for px, py in [0,4), tetromino_cell is true exactly when bit 15 - (py*4 + px) of
the 16-bit pattern tetrominoes[shape][rotation] is set. -/
theorem tetromino_cell_bit (shape : Fin 10) (rotation : Fin 4) (px py : Nat)
    (hx : px < 4) (hy : py < 4) :
    (tetromino_cell shape rotation px py = true ↔
      (tetromino_bits shape rotation).testBit (15 - (py * 4 + px)) = true) ∧
    tetromino_bits shape rotation < 2 ^ 16 := by
  refine ⟨?_, tetromino_bits_16 shape rotation⟩
  rw [tetromino_cell_table shape rotation ⟨px, hx⟩ ⟨py, hy⟩]

/-- Witness for C13: the square, rotation 0, cell (1,0) is bit 14 of 0x6600. -/
theorem tetromino_cell_bit_witness :
    (1 < 4) ∧ (0 < 4) ∧
    (tetromino_cell 3 0 1 0 = true ↔
      (tetromino_bits 3 0).testBit (15 - (0 * 4 + 1)) = true) :=
  ⟨by decide, by decide, (tetromino_cell_bit 3 0 1 0 (by decide) (by decide)).1⟩

/-! ### Frame of the operations of the game -/

theorem input_step_fields (inp : Input) (s : State) :
    ∃ x y, (input_step inp s).1 = { s with block_x := x, block_y := y } ∧
      (check_collision_shape s.grid s.block_x s.block_y s.current_shape
          s.current_rotation = false →
        check_collision_shape s.grid x y s.current_shape s.current_rotation = false) := by
  unfold input_step
  split
  · split
    · rename_i h
      exact ⟨s.block_x - 1, s.block_y, rfl, fun _ => by simpa using h.2⟩
    · split
      · rename_i h
        exact ⟨s.block_x + 1, s.block_y, rfl, fun _ => by simpa using h.2⟩
      · split
        · rename_i h
          exact ⟨s.block_x, s.block_y + 1, rfl, fun _ => by simpa using h.2⟩
        · exact ⟨s.block_x, s.block_y, rfl, fun h => h⟩
  · exact ⟨s.block_x, s.block_y, rfl, fun h => h⟩

theorem spawn_piece_cases (r : Nat) (s : State) :
    ∃ g : Bool, spawn_piece r s =
        { s with current_shape := ⟨r % 10, Nat.mod_lt _ (by decide)⟩, current_rotation := 0,
                 block_x := 6, block_y := 0, game_over := g } ∧
      (g = true ∨
        (g = s.game_over ∧
          check_collision_shape s.grid 6 0 ⟨r % 10, Nat.mod_lt _ (by decide)⟩ 0 = false)) := by
  unfold spawn_piece
  simp only []
  split
  · exact ⟨true, rfl, Or.inl rfl⟩
  · rename_i h
    refine ⟨s.game_over, rfl, Or.inr ⟨rfl, ?_⟩⟩
    simpa using h

theorem gravity_step_cases (fuel r : Nat) (s s1 : State)
    (h : gravity_step fuel r s = .ok s1) :
    (check_collision_shape s.grid s.block_x (s.block_y + 1) s.current_shape
        s.current_rotation = false ∧ s1 = { s with block_y := s.block_y + 1 }) ∨
    (check_collision_shape s.grid s.block_x (s.block_y + 1) s.current_shape
        s.current_rotation = true ∧
      ∃ g l, s1 = spawn_piece r { s with grid := g, led := l }) := by
  unfold gravity_step at h
  split at h
  · rename_i hc
    left
    injection h with h
    exact ⟨by simpa using hc, h.symm⟩
  · rename_i hc
    right
    refine ⟨by simpa using hc, ?_⟩
    simp only [] at h
    split at h
    · injection h with h
      exact ⟨_, _, h.symm⟩
    · cases h

theorem redraw_fields (s s1 : State) (h : redraw_if_needed s = .ok s1) :
    ∃ d b n, s1 = { s with display := d, bus := b, needs_redraw := n } := by
  unfold redraw_if_needed at h
  split at h
  · cases hd : draw_game s with
    | error e => rw [hd] at h; cases h
    | ok s2 =>
      rw [hd] at h
      obtain ⟨d, b, e⟩ := draw_game_fields s s2 hd
      injection h with h
      exact ⟨d, b, false, by rw [← h, e]⟩
  · injection h with h
    exact ⟨s.display, s.bus, s.needs_redraw, h.symm⟩

/-- The two loops of reset_game leave every cell empty. -/
theorem reset_loops_empty (g : Grid) :
    (List.finRange 8).foldl (fun g y =>
      (List.finRange 16).foldl (fun g x => g.set y x 0) g) g = Grid.empty := by
  have key : ∀ (l : List (Fin 8)) (g : Grid) (r : Fin 8) (c : Fin 16),
      (l.foldl (fun g y => (List.finRange 16).foldl (fun g x => g.set y x 0) g) g).cells r c =
        if r ∈ l then 0 else g.cells r c := by
    intro l
    induction l with
    | nil => intro g r c; simp
    | cons a l ih =>
      intro g r c
      rw [List.foldl_cons, ih, foldl_set_row a (fun _ => 0)]
      by_cases h1 : r ∈ l
      · simp [h1]
      · by_cases h2 : r = a
        · simp [h2, List.mem_finRange]
        · simp [h1, h2]
  apply Grid.ext
  funext r c
  rw [key]
  simp [List.mem_finRange, Grid.empty]

theorem spawn_on_empty :
    ∀ shape : Fin 10, check_collision_shape Grid.empty 6 0 shape 0 = false := by
  decide

theorem reset_game_fields (r : Nat) (s s1 : State) (h : reset_game r s = .ok s1) :
    ∃ d b, s1 = { s with grid := Grid.empty, game_over := false,
                         game_over_led_flashed := false,
                         current_shape := ⟨r % 10, Nat.mod_lt _ (by decide)⟩,
                         current_rotation := 0, block_x := 6, block_y := 0,
                         display := d, bus := b } := by
  unfold reset_game at h
  simp only [reset_loops_empty] at h
  obtain ⟨d, b, e⟩ := draw_game_fields _ _ h
  refine ⟨d, b, ?_⟩
  rw [e]
  obtain ⟨g, e1, hg⟩ := spawn_piece_cases r
    { s with grid := Grid.empty, game_over := false, game_over_led_flashed := false }
  rw [e1]
  rcases hg with hg | ⟨hg, _⟩
  · exfalso
    rw [hg] at e1
    have hc := spawn_on_empty ⟨r % 10, Nat.mod_lt _ (by decide)⟩
    unfold spawn_piece at e1
    simp only [] at e1
    have hc1 : check_collision_shape Grid.empty ((GRID_WIDTH / 2 - 2 : Nat) : Int) 0
        ⟨r % 10, Nat.mod_lt _ (by decide)⟩ 0 = false := hc
    rw [hc1] at e1
    simp only [Bool.false_eq_true, if_false] at e1
    have := congrArg State.game_over e1
    simp at this
  · rw [hg]

theorem main_setup_fields (r : Nat) (s : State) (h : main_setup r = .ok s) :
    s.grid = Grid.empty ∧ s.game_over = false ∧ s.game_over_led_flashed = false ∧
    s.current_shape.val = r % 10 ∧ s.current_rotation = 0 ∧ s.block_x = 6 ∧
    s.block_y = 0 := by
  unfold main_setup at h
  simp only [] at h
  cases hr : reset_game r
      { initial_state with display := (ssd1306_init 128 64 initial_state.bus).1,
                           bus := (ssd1306_init 128 64 initial_state.bus).2 } with
  | error e => rw [hr] at h; cases h
  | ok s1 =>
    rw [hr] at h
    obtain ⟨d, b, e⟩ := reset_game_fields _ _ _ hr
    injection h with h
    rw [← h, e]
    exact ⟨rfl, rfl, rfl, rfl, rfl, rfl, rfl⟩

/-- The display part of the game-over branch: only the display, the I2C log and the flag
`game_over_displayed` can change. -/
theorem game_over_iteration_split (inp : Input) (s s1 : State)
    (h : game_over_iteration inp s = .ok s1) :
    ∃ d b gd l f,
      (if inp.down = true then
        reset_game inp.rand
          { s with display := d, bus := b, game_over_displayed := gd, led := l,
                   game_over_led_flashed := f }
      else pure
          { s with display := d, bus := b, game_over_displayed := gd, led := l,
                   game_over_led_flashed := f }) = Except.ok s1 := by
  unfold game_over_iteration at h
  simp only [bind, Except.bind] at h
  cases hgd : s.game_over_displayed
  · simp only [hgd, Bool.false_eq_true, not_false_eq_true, if_true] at h
    cases hsh : ssd1306_show (ssd1306_clear s.display) s.bus with
    | error e => rw [hsh] at h; simp only [Except.map] at h; cases h
    | ok b1 =>
      rw [hsh] at h
      simp only [Except.map, pure, Except.pure] at h
      cases hf : s.game_over_led_flashed
      · simp only [hf, Bool.false_eq_true, not_false_eq_true, if_true] at h
        exact ⟨ssd1306_clear s.display, b1, true, led_flash 300 s.led, true, h⟩
      · simp only [hf, not_true_eq_false, if_false] at h
        exact ⟨ssd1306_clear s.display, b1, true, s.led, true, h⟩
  · simp only [hgd, not_true_eq_false, if_false, pure, Except.pure] at h
    cases hf : s.game_over_led_flashed
    · simp only [hf, Bool.false_eq_true, not_false_eq_true, if_true] at h
      exact ⟨s.display, s.bus, true, led_flash 300 s.led, true, h⟩
    · simp only [hf, not_true_eq_false, if_false] at h
      exact ⟨s.display, s.bus, s.game_over_displayed, s.led, s.game_over_led_flashed, h⟩

/-- What the game-over branch does when Down is not pressed: only the display, the I2C
log, the LED log and the two one-shot flags can change. -/
theorem game_over_iteration_idle (inp : Input) (s s1 : State) (hd : inp.down = false)
    (h : game_over_iteration inp s = .ok s1) :
    ∃ d b gd l f,
      s1 = { s with display := d, bus := b, game_over_displayed := gd, led := l,
                    game_over_led_flashed := f } := by
  obtain ⟨d, b, gd, l, f, e⟩ := game_over_iteration_split inp s s1 h
  rw [if_neg (by simp [hd])] at e
  injection e with e
  exact ⟨d, b, gd, l, f, e.symm⟩

/-- What the game-over branch does when Down is pressed: it ends with reset_game. -/
theorem game_over_iteration_restart (inp : Input) (s s1 : State) (hd : inp.down = true)
    (h : game_over_iteration inp s = .ok s1) :
    ∃ s2, reset_game inp.rand s2 = .ok s1 := by
  obtain ⟨d, b, gd, l, f, e⟩ := game_over_iteration_split inp s s1 h
  rw [if_pos hd] at e
  exact ⟨_, e⟩

/-- What the first part of the playing branch does to the piece: it keeps the piece free
of collisions (or ends the game), and the rotation is kept or set to 0. -/
theorem playing_update_inv (fuel : Nat) (inp : Input) (s s2 : State)
    (h : playing_update fuel inp s = .ok s2) (hgo : s.game_over = false)
    (hfit : piece_fits s) :
    piece_fits s2 ∧ (s2.current_rotation = s.current_rotation ∨ s2.current_rotation = 0) := by
  have hnc : check_collision_shape s.grid s.block_x s.block_y s.current_shape
      s.current_rotation = false := by
    rcases hfit with hf | hf
    · rw [hgo] at hf; cases hf
    · exact hf
  obtain ⟨x, y, e, hxy⟩ := input_step_fields inp { s with game_over_displayed := false }
  have hxy1 := hxy hnc
  unfold playing_update at h
  simp only [] at h
  rw [e] at h
  have hB : ∃ n, (if (input_step inp { s with game_over_displayed := false }).2 = true then
        ({ s with game_over_displayed := false, block_x := x, block_y := y,
                  needs_redraw := true } : State)
      else { s with game_over_displayed := false, block_x := x, block_y := y }) =
      { s with game_over_displayed := false, block_x := x, block_y := y,
               needs_redraw := n } := by
    split
    · exact ⟨true, rfl⟩
    · exact ⟨s.needs_redraw, rfl⟩
  obtain ⟨n, eB⟩ := hB
  rw [eB] at h
  split at h
  · cases hg : gravity_step fuel inp.rand
        { s with game_over_displayed := false, block_x := x, block_y := y,
                 needs_redraw := n } with
    | error e1 => rw [hg] at h; cases h
    | ok s3 =>
      rw [hg] at h
      injection h with h
      rcases gravity_step_cases _ _ _ _ hg with ⟨hc, e3⟩ | ⟨_, g, l, e3⟩
      · rw [← h, e3]
        exact ⟨Or.inr hc, Or.inl rfl⟩
      · obtain ⟨go, e4, hgo4⟩ := spawn_piece_cases inp.rand
          { s with game_over_displayed := false, block_x := x, block_y := y,
                   needs_redraw := n, grid := g, led := l }
        rw [← h, e3, e4]
        refine ⟨?_, Or.inr rfl⟩
        rcases hgo4 with h5 | ⟨_, h5⟩
        · exact Or.inl h5
        · exact Or.inr h5
  · injection h with h
    rw [← h]
    exact ⟨Or.inr hxy1, Or.inl rfl⟩

theorem start_inv (s : State) (h : Start s) : piece_fits s ∧ s.current_rotation = 0 := by
  rcases h with ⟨r, h⟩ | ⟨r, s0, h⟩
  · obtain ⟨hg, hgo, _, hs, hr, hx, hy⟩ := main_setup_fields r s h
    refine ⟨Or.inr ?_, hr⟩
    rw [hg, hx, hy, hr]
    exact spawn_on_empty _
  · obtain ⟨d, b, e⟩ := reset_game_fields r s0 s h
    rw [e]
    exact ⟨Or.inr (spawn_on_empty _), rfl⟩

theorem step_inv (s s1 : State) (h : Step s s1)
    (hi : piece_fits s ∧ s.current_rotation = 0) :
    piece_fits s1 ∧ s1.current_rotation = 0 := by
  obtain ⟨fuel, inp, h⟩ := h
  unfold main_loop_iteration at h
  cases hgo : s.game_over
  · rw [if_pos (by simp [hgo])] at h
    unfold playing_iteration at h
    cases hu : playing_update fuel inp s with
    | error e => rw [hu] at h; cases h
    | ok s2 =>
      rw [hu] at h
      obtain ⟨d, b, n, e⟩ := redraw_fields s2 s1 h
      obtain ⟨h1, h2⟩ := playing_update_inv fuel inp s s2 hu hgo hi.1
      rw [e]
      refine ⟨h1, ?_⟩
      show s2.current_rotation = 0
      rcases h2 with h2 | h2
      · rw [h2]; exact hi.2
      · exact h2
  · rw [if_neg (by simp [hgo])] at h
    cases hd : inp.down
    · obtain ⟨d, b, gd, l, f, e⟩ := game_over_iteration_idle inp s s1 hd h
      rw [e]
      exact ⟨Or.inl hgo, hi.2⟩
    · obtain ⟨s2, h2⟩ := game_over_iteration_restart inp s s1 hd h
      exact start_inv s1 (Or.inr ⟨_, _, h2⟩)

theorem reachable_inv (s : State) (h : Reachable s) :
    piece_fits s ∧ s.current_rotation = 0 := by
  induction h with
  | start s hs => exact start_inv s hs
  | step s s1 _ hstep ih => exact step_inv s s1 hstep ih

/-! ### The operations return on the 128x64 panel -/

theorem spawn_piece_display (r : Nat) (s : State) :
    (spawn_piece r s).display = s.display := by
  obtain ⟨g, e, _⟩ := spawn_piece_cases r s
  rw [e]

theorem reset_game_ok (r : Nat) (s : State) (hp : panel_ok s.display) :
    ∃ s1, reset_game r s = .ok s1 ∧ panel_ok s1.display := by
  unfold reset_game
  simp only []
  obtain ⟨d, b, h1, h2⟩ := draw_game_panel
    (spawn_piece r { s with
      grid := (List.finRange 8).foldl (fun g y =>
        (List.finRange 16).foldl (fun g x => g.set y x 0) g) s.grid,
      game_over := false, game_over_led_flashed := false })
    (by rw [spawn_piece_display]; exact hp)
  exact ⟨_, h1, h2⟩

theorem main_setup_ok (r : Nat) : ∃ s, main_setup r = .ok s ∧ panel_ok s.display := by
  unfold main_setup
  simp only []
  obtain ⟨s1, h1, h2⟩ := reset_game_ok r
    { initial_state with display := (ssd1306_init 128 64 initial_state.bus).1,
                         bus := (ssd1306_init 128 64 initial_state.bus).2 } ⟨rfl, rfl⟩
  rw [h1]
  exact ⟨_, rfl, h2⟩

theorem main_setup_eq (r : Nat) : main_setup r = .ok (state_after_setup r) := by
  obtain ⟨s, h, _⟩ := main_setup_ok r
  unfold state_after_setup
  rw [h]

theorem game_over_iteration_ok (inp : Input) (s : State) (hp : panel_ok s.display) :
    ∃ s1, game_over_iteration inp s = .ok s1 ∧ panel_ok s1.display := by
  unfold game_over_iteration
  simp only [bind, Except.bind]
  obtain ⟨b1, hb⟩ := show_panel (ssd1306_clear s.display) s.bus hp
  rw [hb]
  cases hgd : s.game_over_displayed <;> cases hf : s.game_over_led_flashed <;>
    cases hd : inp.down <;>
    simp only [hgd, hf, hd, Bool.false_eq_true, not_false_eq_true, not_true_eq_false,
      if_true, if_false, Except.map, pure, Except.pure]
  all_goals first
    | exact ⟨_, rfl, hp⟩
    | exact reset_game_ok _ _ hp

theorem full_rows_le (g : Grid) : g.full_rows ≤ 8 := by
  unfold Grid.full_rows
  calc (g.rows.filter Row.is_full).length ≤ g.rows.length := List.length_filter_le _ _
    _ = 8 := g.rows_length

theorem gravity_step_ok (fuel r : Nat) (s : State) (hfuel : 16 ≤ fuel) :
    ∃ s1, gravity_step fuel r s = .ok s1 ∧ s1.display = s.display := by
  unfold gravity_step
  split
  · exact ⟨_, rfl, rfl⟩
  · simp only []
    obtain ⟨g1, h1, _⟩ := clear_lines_spec
      (lock_shape s.grid s.block_x s.block_y s.current_shape s.current_rotation)
      (led_flash 100 s.led) fuel
      (by have := full_rows_le
            (lock_shape s.grid s.block_x s.block_y s.current_shape s.current_rotation)
          omega)
    rw [h1]
    exact ⟨_, rfl, by rw [spawn_piece_display]⟩

theorem playing_update_ok (fuel : Nat) (inp : Input) (s : State) (hfuel : 16 ≤ fuel) :
    ∃ s2, playing_update fuel inp s = .ok s2 ∧ s2.display = s.display := by
  obtain ⟨x, y, e, _⟩ := input_step_fields inp { s with game_over_displayed := false }
  unfold playing_update
  simp only []
  rw [e]
  have hB : ∃ n, (if (input_step inp { s with game_over_displayed := false }).2 = true then
        ({ s with game_over_displayed := false, block_x := x, block_y := y,
                  needs_redraw := true } : State)
      else { s with game_over_displayed := false, block_x := x, block_y := y }) =
      { s with game_over_displayed := false, block_x := x, block_y := y,
               needs_redraw := n } := by
    split
    · exact ⟨true, rfl⟩
    · exact ⟨s.needs_redraw, rfl⟩
  obtain ⟨n, eB⟩ := hB
  rw [eB]
  split
  · obtain ⟨s3, h3, h4⟩ := gravity_step_ok fuel inp.rand
      { s with game_over_displayed := false, block_x := x, block_y := y,
               needs_redraw := n } hfuel
    rw [h3]
    exact ⟨_, rfl, h4⟩
  · exact ⟨_, rfl, rfl⟩

/-- On the 128x64 panel, with fuel for 16 passes of the line scan, a pass of the main
loop always returns a state, again on the 128x64 panel. -/
theorem main_loop_iteration_ok (fuel : Nat) (inp : Input) (s : State) (hfuel : 16 ≤ fuel)
    (hp : panel_ok s.display) :
    ∃ s1, main_loop_iteration fuel inp s = .ok s1 ∧ panel_ok s1.display := by
  unfold main_loop_iteration
  split
  · unfold playing_iteration
    obtain ⟨s2, h2, hd⟩ := playing_update_ok fuel inp s hfuel
    rw [h2]
    obtain ⟨d, b, h3, h4⟩ := redraw_if_needed_panel s2 (by rw [hd]; exact hp)
    exact ⟨_, h3, h4⟩
  · exact game_over_iteration_ok inp s hp

theorem playing_update_rotation (fuel : Nat) (inp : Input) (s s2 : State)
    (h : playing_update fuel inp s = .ok s2) :
    s2.current_rotation = s.current_rotation ∨ s2.current_rotation = 0 := by
  obtain ⟨x, y, e, _⟩ := input_step_fields inp { s with game_over_displayed := false }
  unfold playing_update at h
  simp only [] at h
  rw [e] at h
  have hB : ∃ n, (if (input_step inp { s with game_over_displayed := false }).2 = true then
        ({ s with game_over_displayed := false, block_x := x, block_y := y,
                  needs_redraw := true } : State)
      else { s with game_over_displayed := false, block_x := x, block_y := y }) =
      { s with game_over_displayed := false, block_x := x, block_y := y,
               needs_redraw := n } := by
    split
    · exact ⟨true, rfl⟩
    · exact ⟨s.needs_redraw, rfl⟩
  obtain ⟨n, eB⟩ := hB
  rw [eB] at h
  split at h
  · cases hg : gravity_step fuel inp.rand
        { s with game_over_displayed := false, block_x := x, block_y := y,
                 needs_redraw := n } with
    | error e1 => rw [hg] at h; cases h
    | ok s3 =>
      rw [hg] at h
      injection h with h
      rcases gravity_step_cases _ _ _ _ hg with ⟨_, e3⟩ | ⟨_, g, l, e3⟩
      · rw [← h, e3]; exact Or.inl rfl
      · obtain ⟨go, e4, _⟩ := spawn_piece_cases inp.rand
          { s with game_over_displayed := false, block_x := x, block_y := y,
                   needs_redraw := n, grid := g, led := l }
        rw [← h, e3, e4]; exact Or.inr rfl
  · injection h with h
    rw [← h]; exact Or.inl rfl

theorem step_rotation (s s1 : State) (h : Step s s1) :
    s1.current_rotation = s.current_rotation ∨ s1.current_rotation = 0 := by
  obtain ⟨fuel, inp, h⟩ := h
  unfold main_loop_iteration at h
  cases hgo : s.game_over
  · rw [if_pos (by simp [hgo])] at h
    unfold playing_iteration at h
    cases hu : playing_update fuel inp s with
    | error e => rw [hu] at h; cases h
    | ok s2 =>
      rw [hu] at h
      obtain ⟨d, b, n, e⟩ := redraw_fields s2 s1 h
      rw [e]
      exact playing_update_rotation fuel inp s s2 hu
  · rw [if_neg (by simp [hgo])] at h
    cases hd : inp.down
    · obtain ⟨d, b, gd, l, f, e⟩ := game_over_iteration_idle inp s s1 hd h
      rw [e]; exact Or.inl rfl
    · obtain ⟨s2, h2⟩ := game_over_iteration_restart inp s s1 hd h
      obtain ⟨d, b, e⟩ := reset_game_fields _ _ _ h2
      rw [e]; exact Or.inr rfl

theorem reachable_after_setup (r : Nat) : Reachable (state_after_setup r) :=
  Reachable.start _ (Or.inl ⟨r, main_setup_eq r⟩)

/-! ### Invariants of the state machine -/

/-- C14: in every reachable state (from the set-up of `main` or from any reset_game, by any
passes of the main loop with any input samples and any values of rand()), either the
game is over or the active piece at its current shape, rotation and anchor does not
collide: check_collision_shape returns false. -/
theorem active_piece_invariant (s : State) (h : Reachable s) :
    s.game_over = true ∨
    check_collision_shape s.grid s.block_x s.block_y s.current_shape s.current_rotation =
      false :=
  (reachable_inv s h).1

/-- Witness for C14: the state `main` enters its loop with when rand() returns 4. -/
theorem active_piece_invariant_witness :
    Reachable (state_after_setup 4) ∧
    ((state_after_setup 4).game_over = true ∨
      check_collision_shape (state_after_setup 4).grid (state_after_setup 4).block_x
        (state_after_setup 4).block_y (state_after_setup 4).current_shape
        (state_after_setup 4).current_rotation = false) :=
  ⟨reachable_after_setup 4, active_piece_invariant _ (reachable_after_setup 4)⟩

/-- C15: whenever reset_game returns (and on the 128x64 panel it always does), every grid
cell is empty, game_over and the game-over LED flag are false, and the active piece has
the shape rand() mod 10, rotation 0 and anchor (6,0); the prior state is arbitrary. -/
theorem reset_game_spec (r : Nat) (s : State) :
    (∀ s1, reset_game r s = .ok s1 →
      (∀ (gy : Fin 8) (gx : Fin 16), s1.grid.cells gy gx = 0) ∧
      s1.game_over = false ∧ s1.game_over_led_flashed = false ∧
      s1.current_rotation = 0 ∧ s1.block_x = 6 ∧ s1.block_y = 0 ∧
      s1.current_shape.val = r % 10) ∧
    (panel_ok s.display → ∃ s1, reset_game r s = .ok s1) := by
  constructor
  · intro s1 h
    obtain ⟨d, b, e⟩ := reset_game_fields r s s1 h
    rw [e]
    exact ⟨fun _ _ => rfl, rfl, rfl, rfl, rfl, rfl, rfl⟩
  · intro hp
    obtain ⟨s1, h, _⟩ := reset_game_ok r s hp
    exact ⟨s1, h⟩

/-- Witness for C15: reset_game in a game-over state with a full grid returns. -/
theorem reset_game_spec_witness :
    panel_ok game_over_state.display ∧ ∃ s1, reset_game 4 game_over_state = .ok s1 :=
  ⟨⟨rfl, rfl⟩, (reset_game_spec 4 game_over_state).2 ⟨rfl, rfl⟩⟩

/-- C16: in a game-over state, when Down is not pressed, a pass of the main loop leaves
the grid, the active piece (shape, rotation, anchor) and game_over as they were, whatever
Left, Right and the timers are; on the 128x64 panel the pass always returns. -/
theorem game_over_idle (fuel : Nat) (inp : Input) (s : State) (hgo : s.game_over = true)
    (hd : inp.down = false) :
    (∀ s1, main_loop_iteration fuel inp s = .ok s1 →
      s1.grid = s.grid ∧ s1.current_shape = s.current_shape ∧
      s1.current_rotation = s.current_rotation ∧ s1.block_x = s.block_x ∧
      s1.block_y = s.block_y ∧ s1.game_over = true) ∧
    (panel_ok s.display → ∃ s1, main_loop_iteration fuel inp s = .ok s1) := by
  have e : main_loop_iteration fuel inp s = game_over_iteration inp s := by
    unfold main_loop_iteration
    rw [if_neg (by simp [hgo])]
  rw [e]
  constructor
  · intro s1 h
    obtain ⟨d, b, gd, l, f, e1⟩ := game_over_iteration_idle inp s s1 hd h
    rw [e1]
    exact ⟨rfl, rfl, rfl, rfl, rfl, hgo⟩
  · intro hp
    obtain ⟨s1, h, _⟩ := game_over_iteration_ok inp s hp
    exact ⟨s1, h⟩

/-- Witness for C16: the sample game-over state, with Left and Right pressed and both
timers expired. -/
theorem game_over_idle_witness :
    game_over_state.game_over = true ∧ left_right_fall.down = false ∧
    panel_ok game_over_state.display ∧
    ∃ s1, main_loop_iteration 0 left_right_fall game_over_state = .ok s1 :=
  ⟨rfl, rfl, ⟨rfl, rfl⟩, (game_over_idle 0 left_right_fall game_over_state rfl rfl).2 ⟨rfl, rfl⟩⟩

/-- C17: in every reachable state the rotation index of the active piece is 0; a pass of
the main loop keeps the rotation or sets it to 0, and spawn_piece always sets it to 0. -/
theorem rotation_always_zero :
    (∀ s, Reachable s → s.current_rotation = 0) ∧
    (∀ s s1, Step s s1 → s1.current_rotation = s.current_rotation ∨ s1.current_rotation = 0) ∧
    (∀ r s, (spawn_piece r s).current_rotation = 0) := by
  refine ⟨fun s h => (reachable_inv s h).2, step_rotation, ?_⟩
  intro r s
  obtain ⟨g, e, _⟩ := spawn_piece_cases r s
  rw [e]

/-- Witness for C17: the state `main` enters its loop with when rand() returns 4. -/
theorem rotation_always_zero_witness :
    Reachable (state_after_setup 4) ∧ (state_after_setup 4).current_rotation = 0 :=
  ⟨reachable_after_setup 4, rotation_always_zero.1 _ (reachable_after_setup 4)⟩

/-! ### Termination and index range of clear_lines -/

/-- Entered at a row index below 8, the scan never reads or writes a row outside the
grid, whatever fuel it is given. -/
theorem clear_lines_loop_in_bounds :
    ∀ (fuel : Nat) (y : Int) (g : Grid) (lc : Bool), y < 8 →
      clear_lines_loop fuel y g lc ≠ .error Fault.bounds := by
  intro fuel
  induction fuel with
  | zero =>
    intro y g lc _
    by_cases h0 : y < 0
    · rw [clear_lines_loop_neg _ _ h0]; intro h; cases h
    · obtain ⟨n, rfl⟩ := Int.eq_ofNat_of_zero_le (by omega : 0 ≤ y)
      rw [clear_lines_loop_zero]; intro h; cases h
  | succ k ih =>
    intro y g lc hy
    by_cases h0 : y < 0
    · rw [clear_lines_loop_neg _ _ h0]; intro h; cases h
    · obtain ⟨n, rfl⟩ := Int.eq_ofNat_of_zero_le (by omega : 0 ≤ y)
      rw [clear_lines_loop_succ k n (by omega)]
      split
      · exact ih _ _ _ hy
      · exact ih _ _ _ (by omega)

/-- Removing a full row lowers the number of full rows by one: the row put on top is
empty, so not full. -/
theorem full_rows_remove (g : Grid) (y : Nat) (hy : y < 8)
    (hfull : (g.cells ⟨y, hy⟩).is_full = true) :
    (clear_top_row (shift_rows_down y hy g)).full_rows + 1 = g.full_rows := by
  have hlen := g.rows_length
  have hy1 : y < g.rows.length := by omega
  have hsplit : g.rows = g.rows.take y ++ g.rows[y] :: g.rows.drop (y + 1) := by
    rw [List.getElem_cons_drop, List.take_append_drop]
  have ha : g.rows[y] = g.cells ⟨y, hy⟩ := by
    have := Grid.rows_getElem? g y
    rw [dif_pos hy, List.getElem?_eq_getElem hy1] at this
    exact Option.some.inj this
  have hA : (g.rows.take y).length = y := by
    rw [List.length_take]; omega
  have hrem := rows_remove_row g (g.rows.take y) (g.rows.drop (y + 1)) g.rows[y]
    (by rw [hA]; exact hy) hsplit
  have hz : Row.zero.is_full = false := by decide
  have e1 : (clear_top_row (shift_rows_down y hy g)).full_rows =
      ((g.rows.take y).filter Row.is_full).length +
        ((g.rows.drop (y + 1)).filter Row.is_full).length := by
    unfold Grid.full_rows
    have hrem1 : (clear_top_row (shift_rows_down y hy g)).rows =
        Row.zero :: (g.rows.take y ++ g.rows.drop (y + 1)) := by
      rw [← hrem]
      congr 3
      exact hA.symm
    rw [hrem1]
    simp [List.filter_cons, hz, List.filter_append]
  have e2 : g.full_rows =
      ((g.rows.take y).filter Row.is_full).length + 1 +
        ((g.rows.drop (y + 1)).filter Row.is_full).length := by
    unfold Grid.full_rows
    conv => lhs; rw [hsplit]
    rw [ha]
    simp [List.filter_cons, hfull, List.filter_append]
    omega
  omega

/-- C19: clear_lines terminates on every grid: with fuel for 8 + (number of full rows)
passes of the scan it returns a result; whatever the fuel, no row outside 0..7 is read or
written; and removing a full row lowers the number of full rows by one. -/
theorem clear_lines_terminates (g : Grid) (led : List Nat) :
    (∀ fuel, 8 + g.full_rows ≤ fuel → ∃ g1 led1, clear_lines fuel g led = .ok (g1, led1)) ∧
    (∀ fuel, clear_lines fuel g led ≠ .error Fault.bounds) ∧
    (∀ (y : Nat) (hy : y < 8), (∀ c : Fin 16, g.cells ⟨y, hy⟩ c ≠ 0) →
      (clear_top_row (shift_rows_down y hy g)).full_rows + 1 = g.full_rows) ∧
    g.full_rows ≤ 8 := by
  refine ⟨?_, ?_, ?_, full_rows_le g⟩
  · intro fuel hfuel
    obtain ⟨g1, h, _⟩ := clear_lines_spec g led fuel hfuel
    exact ⟨g1, _, h⟩
  · intro fuel h
    unfold clear_lines at h
    have hb := clear_lines_loop_in_bounds fuel ((GRID_HEIGHT - 1 : Nat) : Int) g false
      (by decide)
    split at h
    · cases h
    · rename_i e he
      injection h with h
      rw [h] at he
      exact hb he
  · intro y hy hfull
    exact full_rows_remove g y hy ((Row.is_full_iff _).2 hfull)

/-- Witness for C19: the grid with rows 2, 3 and 5 full returns with fuel 11. -/
theorem clear_lines_terminates_witness :
    8 + grid_2_3_5.full_rows ≤ 11 ∧
    ∃ g1 led1, clear_lines 11 grid_2_3_5 [] = .ok (g1, led1) :=
  ⟨by rw [grid_2_3_5_full_rows],
    (clear_lines_terminates grid_2_3_5 []).1 11 (by rw [grid_2_3_5_full_rows])⟩

/-! ### Framebuffer accesses on the 128x64 panel -/

/-- C20: on the 128x64 panel every call of ssd1306_draw_pixel returns without a fault; a
pixel inside the surface has its byte index (y/8)*128 + x below 1024, the 16-bit index
computation does not wrap, and only that byte is written; ssd1306_show returns without a
fault and every index page*128 + i it reads, page < 8, i < 128, is below 1024. -/
theorem framebuffer_in_range (dev : ssd1306_t) (hp : panel_ok dev) :
    (∀ (x y : U8) (color : Bool), ∃ dev1, ssd1306_draw_pixel dev x y color = .ok dev1) ∧
    (∀ (x y : U8) (color : Bool), x.val < 128 → y.val < 64 →
      (y.val / 8) * dev.width.val + x.val < 1024 ∧
      ((y.val / 8) * dev.width.val + x.val) % 65536 = (y.val / 8) * dev.width.val + x.val ∧
      ∃ dev1, ssd1306_draw_pixel dev x y color = .ok dev1 ∧
        ∀ i : Fin 1024, i.val ≠ (y.val / 8) * dev.width.val + x.val →
          dev1.buffer i = dev.buffer i) ∧
    (∀ bus, ∃ bus1, ssd1306_show dev bus = .ok bus1) ∧
    (∀ page i : Nat, page < dev.height.val / 8 → i < dev.width.val →
      page * dev.width.val + i < 1024) := by
  have hw : dev.width.val = 128 := by rw [hp.1]; rfl
  have hh : dev.height.val = 64 := by rw [hp.2]; rfl
  refine ⟨?_, ?_, ?_, ?_⟩
  · intro x y color
    obtain ⟨dev1, h, _⟩ := draw_pixel_panel dev x y color hp
    exact ⟨dev1, h⟩
  · intro x y color hx hy
    have hi : (y.val / 8) * dev.width.val + x.val < 1024 := by rw [hw]; omega
    refine ⟨hi, Nat.mod_eq_of_lt (by omega), ?_⟩
    obtain ⟨dev1, h1, _, _, _, _, h6⟩ := draw_pixel_inside dev x y color (by omega)
      (by omega) hi
    exact ⟨dev1, h1, h6⟩
  · intro bus
    exact show_panel dev bus hp
  · intro page i h1 h2
    rw [hw] at h2 ⊢
    rw [hh] at h1
    omega

/-- Witness for C20: the panel as `main` sets it up, pixel (127,63), the last byte. -/
theorem framebuffer_in_range_witness :
    panel_ok panel_128x64 ∧ (127 : U8).val < 128 ∧ (63 : U8).val < 64 ∧
    ((63 : U8).val / 8) * panel_128x64.width.val + (127 : U8).val < 1024 ∧
    ∃ bus1, ssd1306_show panel_128x64 [] = .ok bus1 :=
  ⟨⟨rfl, rfl⟩, by decide, by decide,
    ((framebuffer_in_range panel_128x64 ⟨rfl, rfl⟩).2.1 127 63 true (by decide)
      (by decide)).1,
    (framebuffer_in_range panel_128x64 ⟨rfl, rfl⟩).2.2.1 []⟩

/-! ### ssd1306_draw_rect_fill -/

/-- C18 (as the code has it): on the 128x64 panel ssd1306_draw_rect_fill returns and gives
the colour to exactly the pixels ((x+dx) mod 256, (y+dy) mod 256), dx < w, dy < h, that
lie on the surface, leaving every other pixel unchanged; when x+w and y+h do not exceed
256 these are the pixels of the rectangle x ≤ px < x+w, y ≤ py < y+h on the surface. -/
theorem draw_rect_fill_spec (dev : ssd1306_t) (x y w h : U8) (fill : Bool)
    (hp : panel_ok dev) :
    ∃ dev1, ssd1306_draw_rect_fill dev x y w h fill = .ok dev1 ∧ panel_ok dev1 ∧
      (∀ px py : Nat, px < 128 → py < 64 →
        pixel_at dev1 px py =
          if ∃ dx, dx < w.val ∧ ∃ dy, dy < h.val ∧
              px = (x.val + dx) % 256 ∧ py = (y.val + dy) % 256 then fill
          else pixel_at dev px py) ∧
      (x.val + w.val ≤ 256 → y.val + h.val ≤ 256 →
        ∀ px py : Nat, px < 128 → py < 64 →
          pixel_at dev1 px py =
            if x.val ≤ px ∧ px < x.val + w.val ∧ y.val ≤ py ∧ py < y.val + h.val then fill
            else pixel_at dev px py) := by
  obtain ⟨dev1, h1, h2, _, h4⟩ := draw_rect_fill_paints dev x y w h fill hp
  have key : ∀ px py : Nat, px < 128 → py < 64 →
      pixel_at dev1 px py =
        if ∃ dx, dx < w.val ∧ ∃ dy, dy < h.val ∧
            px = (x.val + dx) % 256 ∧ py = (y.val + dy) % 256 then fill
        else pixel_at dev px py := by
    intro px py hx hy
    rcases h4 px py hx hy with ⟨a, b⟩ | ⟨a, b⟩
    · rw [if_pos a, b]
    · rw [if_neg a, b]
  refine ⟨dev1, h1, h2, key, ?_⟩
  intro hxw hyh px py hx hy
  rw [key px py hx hy]
  have e : (∃ dx, dx < w.val ∧ ∃ dy, dy < h.val ∧
      px = (x.val + dx) % 256 ∧ py = (y.val + dy) % 256) ↔
      (x.val ≤ px ∧ px < x.val + w.val ∧ y.val ≤ py ∧ py < y.val + h.val) := by
    constructor
    · rintro ⟨dx, hdx, dy, hdy, e1, e2⟩
      omega
    · rintro ⟨a, b, c, d⟩
      exact ⟨px - x.val, by omega, py - y.val, by omega, by omega, by omega⟩
  simp only [e]

/-- Witness for C18: an 8x8 block at (120,56), the bottom right corner of the panel. -/
theorem draw_rect_fill_spec_witness :
    panel_ok panel_128x64 ∧ (120 : U8).val + (8 : U8).val ≤ 256 ∧
    (56 : U8).val + (8 : U8).val ≤ 256 ∧
    ∃ dev1, ssd1306_draw_rect_fill panel_128x64 120 56 8 8 true = .ok dev1 ∧
      ∀ px py : Nat, px < 128 → py < 64 →
        pixel_at dev1 px py =
          if (120 : U8).val ≤ px ∧ px < (120 : U8).val + (8 : U8).val ∧
              (56 : U8).val ≤ py ∧ py < (56 : U8).val + (8 : U8).val then true
          else pixel_at panel_128x64 px py := by
  obtain ⟨dev1, h1, _, _, h4⟩ := draw_rect_fill_spec panel_128x64 120 56 8 8 true ⟨rfl, rfl⟩
  exact ⟨⟨rfl, rfl⟩, by decide, by decide, dev1, h1, h4 (by decide) (by decide)⟩

/-- C18 fails as stated: the rectangle x = 250, y = 0, w = 10, h = 1 lies wholly beyond the
128 columns of the surface, yet pixel (0,0) is set: 250 + 6 is narrowed to the 8-bit
value 0 when it is passed to ssd1306_draw_pixel. -/
theorem draw_rect_fill_counterexample :
    ∃ dev1, ssd1306_draw_rect_fill panel_128x64 250 0 10 1 true = .ok dev1 ∧
      pixel_at panel_128x64 0 0 = false ∧ pixel_at dev1 0 0 = true ∧
      ¬ ((250 : U8).val ≤ 0) := by
  obtain ⟨dev1, h1, _, _, h4⟩ := draw_rect_fill_paints panel_128x64 250 0 10 1 true ⟨rfl, rfl⟩
  refine ⟨dev1, h1, by decide, ?_, by decide⟩
  rcases h4 0 0 (by decide) (by decide) with ⟨_, b⟩ | ⟨a, _⟩
  · exact b
  · exact absurd ⟨6, by decide, 0, by decide, by decide, by decide⟩ a

end Tetris
